import Mathlib

/-!
Verification of the R-Info front-end compiler (lexer, parser, semantic
analyzer) against its specification.

The development shallowly embeds the Rust sources:
  - `src/lib/lexer/token.rs` (token kinds, keyword registry),
  - `src/lib/lexer/scanner.rs` (the tokenizer, embedded as a fuel-indexed
    step loop over an explicit lexer state),
  - `src/lib/parser/processor.rs` (the recursive-descent parser, embedded
    as fuel-indexed functions over an explicit parser state),
  - `src/lib/semanticizer/analizer.rs` (the semantic analyzer, embedded as
    state-passing visitor functions).

Machine integers are modelled as `Int` with the explicit i32 range check
that `str::parse::<i32>` performs; `HashMap`/`HashSet` are modelled as
association lists with insert-or-update semantics (iteration order of a
Rust `HashMap` is unspecified, the association-list order is a fixed
representative; no theorem below depends on that order).  String handling
is ASCII, matching every string the embedded programs manipulate.

All loops are embedded with explicit fuel so that every definition is a
computable structural recursion; theorems about a run that returned a
value hold for every fuel, and concrete runs are evaluated with ample fuel.
-/

set_option maxRecDepth 10000

namespace RInfo

/-- Decidable equality for `Except`, used to evaluate embedded runs. -/
instance {ε α : Type} [DecidableEq ε] [DecidableEq α] : DecidableEq (Except ε α)
  | .ok a, .ok b => by
      cases h : decide (a = b) with
      | true => exact .isTrue (by simp_all)
      | false => exact .isFalse (by simp_all)
  | .ok _, .error _ => .isFalse (by simp)
  | .error _, .ok _ => .isFalse (by simp)
  | .error a, .error b => by
      cases h : decide (a = b) with
      | true => exact .isTrue (by simp_all)
      | false => exact .isFalse (by simp_all)

/-- ASCII lower-casing of a string (`str::to_lowercase` on the ASCII
strings handled by the sources). -/
def strToLower (s : String) : String := (s.data.map Char.toLower).asString

/-- The error value of `src/lib/compilerError.rs`: message, line, column. -/
structure CompilerError where
  message : String
  line : Nat
  column : Nat
deriving DecidableEq, Repr

/-- Token kinds from `src/lib/lexer/token.rs`, extended with the
`OpenedParenthesis`, `ClosedParenthesis` and `ParameterType` variants that
`scanner.rs` and `processor.rs` construct and match on. -/
inductive TokenType where
  | Parameter
  | Str
  | Num
  | Bool
  | BoolValue
  | Keyword
  | Indent
  | Dedent
  | ControlSentence
  | ElementalInstruction
  | Identifier
  | EndFile
  | Declaration
  | Assign
  | Equals
  | NotEquals
  | Less
  | LessEqual
  | GreaterEqual
  | Greater
  | And
  | Or
  | Not
  | Comma
  | Plus
  | Minus
  | Multiply
  | Divide
  | OpenedParenthesis
  | ClosedParenthesis
  | ParameterType
deriving DecidableEq, Repr

/-- A token: kind, lexeme, line and column (`Token` in `token.rs`). -/
structure Token where
  tokenType : TokenType
  value : String
  line : Nat
  column : Nat
deriving DecidableEq, Repr

/-- The nine section keywords of `Keywords::new` (`basic_keywords`). -/
def basicKeywords : List String :=
  ["proceso", "robot", "variables", "comenzar", "fin", "programa",
   "procesos", "areas", "robots"]

/-- The four control words of `Keywords::new` (`control_sentences`). -/
def controlSentences : List String :=
  ["si", "sino", "mientras", "repetir"]

/-- The twenty-five built-in action names of `Keywords::new`
(`elemental_instructions`). -/
def elementalInstructions : List String :=
  ["Iniciar", "derecha", "mover", "tomarFlor", "tomarPapel",
   "depositarFlor", "depositarPapel", "PosAv", "PosCa",
   "HayFlorEnLaBolsa", "HayPapelEnLaBolsa", "HayFlorEnLaEsquina",
   "HayPapelEnLaEsquina", "Pos", "Informar", "AsignarArea",
   "AreaC", "AreaPC", "AreaP", "Leer", "Random",
   "BloquearEsquina", "LiberarEsquina", "EnviarMensaje", "RecibirMensaje"]

/-- Lookup in the `keyword_map` built by `Keywords::new`: section keywords
map to `Keyword`, control words to `ControlSentence`, built-in action
names to `ElementalInstruction` (the three key sets are disjoint, so the
insertion order into the `HashMap` is irrelevant). -/
def keywordMapGet (word : String) : Option TokenType :=
  if basicKeywords.contains word then some .Keyword
  else if controlSentences.contains word then some .ControlSentence
  else if elementalInstructions.contains word then some .ElementalInstruction
  else none

/-- Lookup in the `types_defined` map of `Keywords::new`:
`numero ↦ Num`, `booleano ↦ Bool`, `V ↦ BoolValue`, `F ↦ BoolValue`. -/
def typesDefinedGet (word : String) : Option TokenType :=
  if word = "numero" then some .Num
  else if word = "booleano" then some .Bool
  else if word = "V" then some .BoolValue
  else if word = "F" then some .BoolValue
  else none

/-- `Lexer::is_boolean_literal`: the lower-cased word is one of the six
accepted boolean spellings. -/
def isBooleanLiteralStr (value : String) : Bool :=
  ["true", "false", "verdadero", "falso", "v", "f"].contains (strToLower value)

/-- `Lexer::determine_identifier_type`: first `keyword_map`, then
`types_defined`, then the boolean-literal check (yielding `Bool`), else
`Identifier`. -/
def determineIdentifierType (value : String) : TokenType :=
  match keywordMapGet value with
  | some t => t
  | none =>
    match typesDefinedGet value with
    | some t => t
    | none => if isBooleanLiteralStr value then .Bool else .Identifier

/-! ## The lexer (`src/lib/lexer/scanner.rs`)

The scanner's mutable struct becomes `LexState`; the character-by-character
`while` loop of `Lexer::tokenize` becomes the step function `tokenizeStep`
iterated by the fuel-indexed `tokenizeLoop`.  Character classification
follows the sources on the ASCII range (`char::is_alphabetic` etc. are
Unicode-aware in Rust; every classifier below agrees with Rust on ASCII,
which is the alphabet of the language). -/

/-- `Lexer::is_operator`. -/
def isOperatorCh (c : Char) : Bool :=
  c = '+' || c = '-' || c = '*' || c = '/' || c = '=' || c = '<' || c = '>' ||
  c = '&' || c = '|' || c = '~'

/-- The comment loop of `Lexer::read_comment`, on the characters after the
opening brace: returns `(consumed, line, column)` where `consumed` includes
the closing brace, or `none` when the comment is unterminated. -/
def skipCommentAux : List Char → Nat → Nat → Option (Nat × Nat × Nat)
  | [], _, _ => none
  | c :: cs, l, col =>
    if c = '}' then some (1, l, col + 1)
    else if c = '\n' then (skipCommentAux cs (l + 1) 1).map (fun r => (r.1 + 1, r.2.1, r.2.2))
    else (skipCommentAux cs l (col + 1)).map (fun r => (r.1 + 1, r.2.1, r.2.2))

/-- The leading-whitespace counter of `Lexer::handle_indentation`: a space
counts 1, a tab counts 4; returns `(indent, consumed)`. -/
def countIndentAux : List Char → Nat × Nat
  | ' ' :: cs => let r := countIndentAux cs; (r.1 + 1, r.2 + 1)
  | '\t' :: cs => let r := countIndentAux cs; (r.1 + 4, r.2 + 1)
  | _ => (0, 0)

/-- The dedent-popping loop of `Lexer::handle_indentation`: pops stack
entries greater than `indent`, counting one `Dedent` per pop; the popped
state ends at the first entry `≤ indent`, and the inconsistent-indentation
error fires when that entry is `< indent`.  The list's head is the top of
the stack. -/
def popDedents (indent : Nat) : List Nat → Except Unit (Nat × List Nat)
  | [] => .ok (0, [])
  | s :: rest =>
    if s ≤ indent then
      if s < indent then .error () else .ok (0, s :: rest)
    else
      match popDedents indent rest with
      | .error e => .error e
      | .ok r => .ok (r.1 + 1, r.2)

/-- The escape table of `Lexer::read_string`. -/
def escMap (c : Char) : Option Char :=
  if c = 'n' then some '\n'
  else if c = 't' then some '\t'
  else if c = 'r' then some '\r'
  else if c = '\\' then some '\\'
  else if c = '\'' then some '\''
  else if c = '"' then some '"'
  else none

/-- The scanning loop of `Lexer::read_string`, on the characters after the
opening quote: returns the unescaped value and the consumed count
(including the closing quote), `ok none` when the input ends before the
closing quote. -/
def readStringAux : List Char → Char → Nat → Nat → Except CompilerError (Option (List Char × Nat))
  | [], _, _, _ => .ok none
  | c :: cs, q, l, col =>
    if c = q then .ok (some ([], 1))
    else if c = '\\' then
      match cs with
      | [] => .error ⟨"Secuencia de escape incompleta", l, col + 1⟩
      | e :: cs' =>
        match escMap e with
        | none => .error ⟨"Secuencia de escape desconocida: \\" ++ e.toString, l, col + 1⟩
        | some ec =>
          match readStringAux cs' q l (col + 2) with
          | .error err => .error err
          | .ok none => .ok none
          | .ok (some r) => .ok (some (ec :: r.1, r.2 + 2))
    else
      match readStringAux cs q l (col + 1) with
      | .error err => .error err
      | .ok none => .ok none
      | .ok (some r) => .ok (some (c :: r.1, r.2 + 1))

/-- The two-character operator table of `Lexer::read_operator`. -/
def twoCharOpType (a b : Char) : Option TokenType :=
  if a = ':' && b = '=' then some .Assign
  else if a = '<' && b = '>' then some .NotEquals
  else if a = '<' && b = '=' then some .LessEqual
  else if a = '>' && b = '=' then some .GreaterEqual
  else if a = '=' && b = '=' then some .Equals
  else none

/-- The single-character operator table of `Lexer::read_operator`. -/
def singleOpType (c : Char) : Option TokenType :=
  if c = ',' then some .Comma
  else if c = ':' then some .Declaration
  else if c = '&' then some .And
  else if c = '|' then some .Or
  else if c = '~' then some .Not
  else if c = '+' then some .Plus
  else if c = '-' then some .Minus
  else if c = '*' then some .Multiply
  else if c = '/' then some .Divide
  else if c = '=' then some .Equals
  else if c = '<' then some .Less
  else if c = '>' then some .Greater
  else none

/-- The mutable state of `Lexer` (scanner.rs).  `indentStack` and
`parenStack` store the Rust `Vec`s with the head of the list as the top of
the stack (the `Vec`'s last element). -/
structure LexState where
  chars : List Char
  position : Nat
  line : Nat
  column : Nat
  tokens : List Token
  indentStack : List Nat
  atLineStart : Bool
  currentIndent : Nat
  parenStack : List (Char × Nat × Nat)
deriving DecidableEq, Repr

/-- The state `Lexer::tokenize` starts from (`Lexer::new` plus the resets
at the top of `tokenize`). -/
def initLexState (chars : List Char) : LexState :=
  ⟨chars, 0, 1, 1, [], [0], true, 0, []⟩

/-- Append one token (`self.tokens.push(...)`). -/
def pushTok (st : LexState) (tt : TokenType) (v : String) (l c : Nat) : LexState :=
  { st with tokens := st.tokens ++ [⟨tt, v, l, c⟩] }

/-- `Lexer::handle_open_parenthesis`. -/
def handleOpenParenthesis (st : LexState) : LexState :=
  let st1 := pushTok { st with parenStack := ('(', st.line, st.column) :: st.parenStack }
    .OpenedParenthesis "(" st.line st.column
  { st1 with position := st.position + 1, column := st.column + 1, atLineStart := false }

/-- `Lexer::handle_close_parenthesis`. -/
def handleCloseParenthesis (st : LexState) : Except CompilerError LexState :=
  match st.parenStack with
  | [] => .error ⟨"Paréntesis de cierre sin apertura correspondiente", st.line, st.column⟩
  | (pc, _, _) :: rest =>
    if pc ≠ '(' then
      .error ⟨"Paréntesis de cierre no corresponde con la apertura", st.line, st.column⟩
    else
      let st1 := pushTok { st with parenStack := rest } .ClosedParenthesis ")" st.line st.column
      .ok { st1 with position := st.position + 1, column := st.column + 1,
                     atLineStart := false }

/-- `Lexer::handle_indentation`.  Note two behaviours of the source this
embedding preserves: the whole token-emitting block is guarded by
`indent != current_indent`, and the empty-line early return leaves
`current_indent` untouched. -/
def handleIndentation (st : LexState) : Except CompilerError LexState :=
  let r := countIndentAux (st.chars.drop st.position)
  let indent := r.1
  let pos' := st.position + r.2
  let col' := st.column + r.2
  match st.chars.get? pos' with
  | none => .ok { st with position := pos', column := col', atLineStart := false }
  | some c =>
    if c = '\n' then .ok { st with position := pos', column := col', atLineStart := false }
    else
      let lastIndent := st.indentStack.headD 0
      if indent ≠ st.currentIndent then
        if indent > lastIndent then
          .ok { pushTok st .Indent "" st.line 1 with
                  position := pos', column := col', atLineStart := false,
                  currentIndent := indent, indentStack := indent :: st.indentStack }
        else if indent < lastIndent then
          match popDedents indent st.indentStack with
          | .error _ => .error ⟨"Indentación inconsistente", st.line, 1⟩
          | .ok r2 =>
            .ok { st with
                  tokens := st.tokens ++ List.replicate r2.1 ⟨.Dedent, "", st.line, 1⟩,
                  indentStack := r2.2,
                  position := pos', column := col', atLineStart := false,
                  currentIndent := indent }
        else
          .ok { st with position := pos', column := col',
                        atLineStart := false, currentIndent := indent }
      else
        .ok { st with position := pos', column := col',
                      atLineStart := false, currentIndent := indent }

/-- `Lexer::skip_whitespace_only`. -/
def skipWhitespaceOnly (st : LexState) : LexState :=
  let ws := (st.chars.drop st.position).takeWhile (fun c => c.isWhitespace && c ≠ '\n')
  { st with position := st.position + ws.length, column := st.column + ws.length,
            atLineStart := if ws.length > 0 then false else st.atLineStart }

/-- `Lexer::read_number` (it does not touch `at_line_start`, as in the
source). -/
def readNumber (st : LexState) : LexState :=
  let ds := (st.chars.drop st.position).takeWhile Char.isDigit
  let st1 := pushTok st .Num ds.asString st.line st.column
  { st1 with position := st.position + ds.length, column := st.column + ds.length }

/-- `Lexer::read_identifier`. -/
def readIdentifier (st : LexState) : LexState :=
  let cs := (st.chars.drop st.position).takeWhile (fun c => c.isAlphanum || c = '_')
  let st1 := pushTok st (determineIdentifierType cs.asString) cs.asString st.line st.column
  { st1 with position := st.position + cs.length, column := st.column + cs.length }

/-- `Lexer::read_string` (like `read_number` it does not touch
`at_line_start`). -/
def readStringTok (st : LexState) (q : Char) : Except CompilerError LexState :=
  match readStringAux (st.chars.drop (st.position + 1)) q st.line (st.column + 1) with
  | .error e => .error e
  | .ok none => .error ⟨"Cadena sin cerrar", st.line, st.column⟩
  | .ok (some r) =>
    let st1 := pushTok st .Str r.1.asString st.line st.column
    .ok { st1 with position := st.position + 1 + r.2, column := st.column + 1 + r.2 }

/-- `Lexer::read_operator`. -/
def readOperator (st : LexState) : Except CompilerError LexState :=
  match st.chars.get? st.position with
  | none => .error ⟨"Operador no reconocido", st.line, st.column⟩
  | some c1 =>
    match st.chars.get? (st.position + 1) with
    | some c2 =>
      match twoCharOpType c1 c2 with
      | some tt =>
        let st1 := pushTok st tt (c1.toString ++ c2.toString) st.line st.column
        .ok { st1 with position := st.position + 2, column := st.column + 2,
                       atLineStart := false }
      | none =>
        match singleOpType c1 with
        | some tt =>
          let st1 := pushTok st tt c1.toString st.line st.column
          .ok { st1 with position := st.position + 1, column := st.column + 1,
                         atLineStart := false }
        | none => .error ⟨"Operador no reconocido: '" ++ c1.toString ++ "'", st.line, st.column⟩
    | none =>
      match singleOpType c1 with
      | some tt =>
        let st1 := pushTok st tt c1.toString st.line st.column
        .ok { st1 with position := st.position + 1, column := st.column + 1,
                       atLineStart := false }
      | none => .error ⟨"Operador no reconocido: '" ++ c1.toString ++ "'", st.line, st.column⟩

/-- Result of one iteration of the `while` loop in `Lexer::tokenize`. -/
inductive LexStep where
  | done (st : LexState)
  | next (st : LexState)
  | fail (e : CompilerError)

/-- One iteration of the character loop of `Lexer::tokenize`, with the
source's match arms in order. -/
def tokenizeStep (st : LexState) : LexStep :=
  match st.chars.get? st.position with
  | none => .done st
  | some c =>
    if c = '{' then
      match skipCommentAux (st.chars.drop (st.position + 1)) st.line (st.column + 1) with
      | none => .fail ⟨"Comentario sin cerrar", st.line, st.column⟩
      | some r => .next { st with position := st.position + 1 + r.1, line := r.2.1, column := r.2.2 }
    else if c = '(' then .next (handleOpenParenthesis st)
    else if c = ')' then
      match handleCloseParenthesis st with
      | .error e => .fail e
      | .ok st' => .next st'
    else if c = '\n' then
      .next { st with line := st.line + 1, column := 1, position := st.position + 1,
                      atLineStart := true }
    else if c.isWhitespace && c ≠ '\n' then
      if st.atLineStart then
        match handleIndentation st with
        | .error e => .fail e
        | .ok st' => .next st'
      else .next (skipWhitespaceOnly st)
    else if c.isDigit then .next (readNumber st)
    else if c.isAlpha || c = '_' then .next { readIdentifier st with atLineStart := false }
    else if c = '"' || c = '\'' then
      match readStringTok st c with
      | .error e => .fail e
      | .ok st' => .next st'
    else if isOperatorCh c || c = ',' || c = ':' then
      match readOperator st with
      | .error e => .fail e
      | .ok st' => .next st'
    else .fail ⟨"Carácter inesperado: < " ++ c.toString ++ " >", st.line, st.column⟩

/-- The `while` loop of `Lexer::tokenize`, indexed by fuel. -/
def tokenizeLoop : Nat → LexState → Except CompilerError LexState
  | 0, _ => .error ⟨"fuel exhausted", 0, 0⟩
  | fuel + 1, st =>
    match tokenizeStep st with
    | .done st' => .ok st'
    | .fail e => .error e
    | .next st' => tokenizeLoop fuel st'

/-- Fuel bound for `tokenizeLoop`: every step either consumes a character
or turns `atLineStart` off without consuming one, so twice the input
length plus a constant suffices. -/
def lexFuel (chars : List Char) : Nat := 2 * chars.length + 4

/-- `Lexer::tokenize`: run the loop, then report the oldest unclosed
parenthesis (`check_unclosed_parentheses` iterates the `Vec` from the
front), drain the indent stack to the sentinel as `Dedent`s, and append
`EndFile`. -/
def tokenize (chars : List Char) : Except CompilerError (List Token) :=
  match tokenizeLoop (lexFuel chars) (initLexState chars) with
  | .error e => .error e
  | .ok st =>
    match st.parenStack.getLast? with
    | some p => .error ⟨"Paréntesis '" ++ p.1.toString ++ "' sin cerrar", p.2.1, p.2.2⟩
    | none =>
      let drained := st.tokens ++
        List.replicate (st.indentStack.length - 1) ⟨.Dedent, "", st.line, 1⟩
      .ok (drained ++ [⟨.EndFile, "", st.line, st.column⟩])

/-- `Lexer::tokenize` on a source string. -/
def tokenizeStr (s : String) : Except CompilerError (List Token) := tokenize s.data

/-! ## Lexer invariants -/

/-- Count of tokens of a given kind. -/
def countTok (tt : TokenType) (ts : List Token) : Nat :=
  ts.countP (fun t => t.tokenType == tt)

/-- The invariant of the scanning loop: indents exceed dedents by exactly
the number of pushed indent levels, the sentinel `0` sits at the bottom of
the indent stack, and neither `EndFile` nor `Parameter` tokens have been
emitted. -/
def LexInv (st : LexState) : Prop :=
  countTok .Indent st.tokens + 1 = countTok .Dedent st.tokens + st.indentStack.length
  ∧ st.indentStack.getLast? = some 0
  ∧ (∀ t ∈ st.tokens, t.tokenType ≠ .EndFile ∧ t.tokenType ≠ .Parameter)

/-! ## The parser (`src/lib/parser/processor.rs`)

The AST structures of `processor.rs` and the recursive-descent parser.
Parser functions take the mutable `Parser` struct as an explicit state and
return it together with the `Result`; on an error the returned state is
the state at the point of failure, as in the source (where `?` propagates
while `self` keeps the tokens already consumed).  All loops and the
mutual recursion are indexed by fuel. -/

/-- The digit-string accumulator of `str::parse::<i32>`. -/
def parseDigitsNat : List Char → Option Nat
  | [] => none
  | l => if l.all Char.isDigit then
           some (l.foldl (fun a c => a * 10 + (c.toNat - 48)) 0)
         else none

/-- Model of `str::parse::<i32>` on the characters of the string:
optional sign, decimal digits, result in the i32 range `[-2^31, 2^31)`. -/
def rustParseI32L : List Char → Option Int
  | '+' :: rest =>
    (parseDigitsNat rest).bind (fun v =>
      if v ≤ 2147483647 then some (v : Int) else none)
  | '-' :: rest =>
    (parseDigitsNat rest).bind (fun v =>
      if v ≤ 2147483648 then some (-(v : Int)) else none)
  | l =>
    (parseDigitsNat l).bind (fun v =>
      if v ≤ 2147483647 then some (v : Int) else none)

/-- Model of `str::parse::<i32>`. -/
def rustParseI32 (s : String) : Option Int := rustParseI32L s.data

/-- The numeric value of a digit string (for stating the overflow
boundary). -/
def digitsNatVal (s : String) : Nat :=
  s.data.foldl (fun a c => a * 10 + (c.toNat - 48)) 0

/-- `value.parse::<i32>().unwrap_or(0)`, as used by
`parse_expresion_simple` and `parse_areas`. -/
def i32OrZero (s : String) : Int := (rustParseI32 s).getD 0

/-- The `{:?}` (Debug) rendering of a token kind, used in parser error
messages. -/
def ttDebug : TokenType → String
  | .Parameter => "Parameter"
  | .Str => "Str"
  | .Num => "Num"
  | .Bool => "Bool"
  | .BoolValue => "BoolValue"
  | .Keyword => "Keyword"
  | .Indent => "Indent"
  | .Dedent => "Dedent"
  | .ControlSentence => "ControlSentence"
  | .ElementalInstruction => "ElementalInstruction"
  | .Identifier => "Identifier"
  | .EndFile => "EndFile"
  | .Declaration => "Declaration"
  | .Assign => "Assign"
  | .Equals => "Equals"
  | .NotEquals => "NotEquals"
  | .Less => "Less"
  | .LessEqual => "LessEqual"
  | .GreaterEqual => "GreaterEqual"
  | .Greater => "Greater"
  | .And => "And"
  | .Or => "Or"
  | .Not => "Not"
  | .Comma => "Comma"
  | .Plus => "Plus"
  | .Minus => "Minus"
  | .Multiply => "Multiply"
  | .Divide => "Divide"
  | .OpenedParenthesis => "OpenedParenthesis"
  | .ClosedParenthesis => "ClosedParenthesis"
  | .ParameterType => "ParameterType"

/-- `Expresion` from `processor.rs`. -/
inductive Expresion where
  | Identificador (nombre : String)
  | Numero (valor : Int)
  | Booleano (valor : Bool)
  | Binaria (izquierda : Expresion) (operador : String) (derecha : Expresion)
deriving Repr, BEq, DecidableEq

/-- `Instruccion` from `processor.rs`. -/
inductive Instruccion where
  | Asignacion (variable' : String) (valor : Expresion)
  | LlamadaFuncion (nombre : String) (argumentos : List Expresion)
  | Si (condicion : Expresion) (entonces : List Instruccion) (sino : List Instruccion)
  | Mientras (condicion : Expresion) (cuerpo : List Instruccion)
  | Repetir (condicion : Expresion) (cuerpo : List Instruccion)
deriving Repr, BEq

/-- `Parametro` from `processor.rs`. -/
structure Parametro where
  tipo : String
  nombre : String
  tipoDato : String
deriving Repr, BEq

/-- `Variable` from `processor.rs`. -/
structure Variable where
  nombre : String
  tipoDato : String
deriving Repr, BEq

/-- `Proceso` from `processor.rs` (`vars` models its `variables`
field; `variables` is a reserved word in Lean). -/
structure Proceso where
  nombre : String
  parametros : List Parametro
  vars : List Variable
  instrucciones : List Instruccion
deriving Repr, BEq

/-- `Area` from `processor.rs`; the coordinates are i32 values. -/
structure Area where
  nombre : String
  tipo : String
  coordenadas : Int × Int × Int × Int
deriving Repr, BEq

/-- `Robot` from `processor.rs` (`vars` models its `variables` field). -/
structure Robot where
  nombre : String
  vars : List Variable
  instrucciones : List Instruccion
deriving Repr, BEq

/-- `RobotInstanciado` from `processor.rs`. -/
structure RobotInstanciado where
  nombre : String
  tipo : String
deriving Repr, BEq

/-- `AsignacionArea` from `processor.rs`. -/
structure AsignacionArea where
  robot : Expresion
  area : Expresion
deriving Repr, BEq

/-- `InicializacionRobot` from `processor.rs`. -/
structure InicializacionRobot where
  robot : Expresion
  posX : Expresion
  posY : Expresion
deriving Repr, BEq

/-- `Program` from `processor.rs`. -/
structure Program where
  nombre : String
  procesos : List Proceso
  areas : List Area
  robotsDeclarados : List String
  robotsDefinidos : List Robot
  robotsInstanciados : List RobotInstanciado
  asignacionesAreas : List AsignacionArea
  inicializaciones : List InicializacionRobot
deriving Repr, BEq

/-- The mutable `Parser` struct: the token slice, the cursor, and the
single token of look-ahead. -/
structure ParserSt where
  tokens : List Token
  pos : Nat
  current : Option Token
deriving Repr

/-- `Parser::avanzar`. -/
def avanzar (st : ParserSt) : ParserSt :=
  if st.pos < st.tokens.length then
    { st with current := st.tokens.get? st.pos, pos := st.pos + 1 }
  else { st with current := none }

/-- `Parser::new` (constructs and advances once). -/
def newParser (tokens : List Token) : ParserSt := avanzar ⟨tokens, 0, none⟩

/-- `Parser::coincidir` (peeks, does not advance). -/
def coincidir (st : ParserSt) (tipo : TokenType) : Bool :=
  match st.current with
  | some t => t.tokenType == tipo
  | none => false

/-- Result of a parsing function: the parser state at return (also on
error) and the `Result`. -/
abbrev PRes (α : Type) := ParserSt × Except CompilerError α

/-- `Parser::consumir`.  On a mismatch with no current token the source
unwraps `None` and panics; that panic is modelled as an error value. -/
def consumir (st : ParserSt) (tipo : TokenType) (mensaje : String) : PRes Unit :=
  if coincidir st tipo then (avanzar st, .ok ())
  else
    match st.current with
    | some token =>
      (st, .error ⟨mensaje ++ ": esperado " ++ ttDebug tipo, token.line, token.column⟩)
    | none => (st, .error ⟨"panic: unwrap on None current token", 0, 0⟩)

/-- `Parser::es_operador_binario`. -/
def esOperadorBinario (token : Token) : Bool :=
  token.tokenType == .Plus || token.tokenType == .Minus ||
  token.tokenType == .Multiply || token.tokenType == .Divide ||
  token.tokenType == .Less || token.tokenType == .LessEqual ||
  token.tokenType == .Greater || token.tokenType == .GreaterEqual ||
  token.tokenType == .Equals || token.tokenType == .NotEquals ||
  token.tokenType == .And || token.tokenType == .Or

/-- The operator-to-lexeme table of `Parser::parse_operador_binario`. -/
def opStrOpt : TokenType → Option String
  | .Plus => some "+"
  | .Minus => some "-"
  | .Multiply => some "*"
  | .Divide => some "/"
  | .Less => some "<"
  | .LessEqual => some "<="
  | .Greater => some ">"
  | .GreaterEqual => some ">="
  | .Equals => some "=="
  | .NotEquals => some "<>"
  | .And => some "&"
  | .Or => some "|"
  | _ => none

/-- `Parser::parse_operador_binario`. -/
def parseOperadorBinario (st : ParserSt) : PRes String :=
  match st.current with
  | none => (st, .error ⟨"Se esperaba operador binario", 0, 0⟩)
  | some token =>
    if esOperadorBinario token then
      match opStrOpt token.tokenType with
      | some op => (avanzar st, .ok op)
      | none => (st, .error ⟨"Operador no reconocido", token.line, token.column⟩)
    else
      (st, .error ⟨"Se esperaba operador binario, encontrado: " ++ ttDebug token.tokenType,
        token.line, token.column⟩)

/-- The break test at the top of the loop of
`Parser::parse_expresion_linea_completa`: end-of-instruction tokens. -/
def isFinDeInstruccion (token : Token) : Bool :=
  token.tokenType == .Indent || token.tokenType == .Dedent ||
  token.tokenType == .Keyword ||
  (token.tokenType == .ControlSentence &&
    (token.value == "si" || token.value == "mientras" ||
     token.value == "repetir" || token.value == "sino"))

mutual

/-- `Parser::parse_instruccion`. -/
def parseInstruccion : Nat → ParserSt → PRes Instruccion
  | 0, st => (st, .error ⟨"fuel", 0, 0⟩)
  | fuel + 1, st =>
    match st.current with
    | none => (st, .error ⟨"Se esperaba una instrucción", 0, 0⟩)
    | some token =>
      match token.tokenType with
      | .Identifier =>
        let nombre := token.value
        let st1 := avanzar st
        match st1.current with
        | some t =>
          if t.tokenType == .Assign then
            match parseExpresionLineaCompleta fuel (avanzar st1) token.line with
            | (st3, .error e) => (st3, .error e)
            | (st3, .ok valor) => (st3, .ok (.Asignacion nombre valor))
          else
            if coincidir st1 .OpenedParenthesis then
              match parseListaArgumentosLoop fuel (avanzar st1) [] with
              | (st3, .error e) => (st3, .error e)
              | (st3, .ok args) =>
                match consumir st3 .ClosedParenthesis "Esperado ')'" with
                | (st4, .error e) => (st4, .error e)
                | (st4, .ok _) => (st4, .ok (.LlamadaFuncion nombre args))
            else (st1, .ok (.LlamadaFuncion nombre []))
        | none => (st1, .ok (.LlamadaFuncion nombre []))
      | .ElementalInstruction =>
        let nombre := token.value
        let st1 := avanzar st
        if coincidir st1 .OpenedParenthesis then
          match parseListaArgumentosLoop fuel (avanzar st1) [] with
          | (st3, .error e) => (st3, .error e)
          | (st3, .ok args) =>
            match consumir st3 .ClosedParenthesis "Esperado ')'" with
            | (st4, .error e) => (st4, .error e)
            | (st4, .ok _) => (st4, .ok (.LlamadaFuncion nombre args))
        else (st1, .ok (.LlamadaFuncion nombre []))
      | .ControlSentence =>
        if token.value == "si" then parseSi fuel st
        else if token.value == "mientras" then parseMientras fuel st
        else if token.value == "repetir" then parseRepetir fuel st
        else (st, .error ⟨"Instrucción de control desconocida: " ++ token.value,
          token.line, token.column⟩)
      | tt => (st, .error ⟨"Instrucción no reconocida: " ++ ttDebug tt,
          token.line, token.column⟩)

/-- `Parser::parse_expresion_linea_completa`: one simple expression, then
the binary-operator loop. -/
def parseExpresionLineaCompleta : Nat → ParserSt → Nat → PRes Expresion
  | 0, st, _ => (st, .error ⟨"fuel", 0, 0⟩)
  | fuel + 1, st, startLine =>
    match parseExpresionSimple fuel st with
    | (st1, .error e) => (st1, .error e)
    | (st1, .ok e0) => parseELCLoop fuel st1 startLine e0

/-- The `while` loop of `parse_expresion_linea_completa`: while the next
token is on the starting line and is a binary operator, absorb it and the
following simple expression, left-nesting the tree. -/
def parseELCLoop : Nat → ParserSt → Nat → Expresion → PRes Expresion
  | 0, st, _, _ => (st, .error ⟨"fuel", 0, 0⟩)
  | fuel + 1, st, startLine, expr =>
    match st.current with
    | none => (st, .ok expr)
    | some token =>
      if token.line ≠ startLine then (st, .ok expr)
      else if isFinDeInstruccion token then (st, .ok expr)
      else if esOperadorBinario token then
        match parseOperadorBinario st with
        | (st1, .error e) => (st1, .error e)
        | (st1, .ok op) =>
          match parseExpresionSimple fuel st1 with
          | (st2, .error e) => (st2, .error e)
          | (st2, .ok der) => parseELCLoop fuel st2 startLine (.Binaria expr op der)
      else (st, .ok expr)

/-- `Parser::parse_expresion_simple`. -/
def parseExpresionSimple : Nat → ParserSt → PRes Expresion
  | 0, st => (st, .error ⟨"fuel", 0, 0⟩)
  | fuel + 1, st =>
    match st.current with
    | none => (st, .error ⟨"Se esperaba una expresión simple", 0, 0⟩)
    | some token =>
      match token.tokenType with
      | .Identifier => (avanzar st, .ok (.Identificador token.value))
      | .Num => (avanzar st, .ok (.Numero (i32OrZero token.value)))
      | .BoolValue => (avanzar st, .ok (.Booleano (token.value == "V")))
      | .ElementalInstruction =>
        let nombre := token.value
        let st1 := avanzar st
        if coincidir st1 .OpenedParenthesis then
          match parseListaArgumentosLoop fuel (avanzar st1) [] with
          | (st3, .error e) => (st3, .error e)
          | (st3, .ok args) =>
            match consumir st3 .ClosedParenthesis "Esperado ')'" with
            | (st4, .error e) => (st4, .error e)
            | (st4, .ok _) =>
              if args.isEmpty then (st4, .ok (.Identificador nombre))
              else (st4, .ok (.Identificador (nombre ++ "(...)")))
        else (st1, .ok (.Identificador nombre))
      | .OpenedParenthesis =>
        match parseExpresionLineaCompleta fuel (avanzar st) token.line with
        | (st2, .error e) => (st2, .error e)
        | (st2, .ok e0) =>
          match consumir st2 .ClosedParenthesis "Esperado ')'" with
          | (st3, .error e) => (st3, .error e)
          | (st3, .ok _) => (st3, .ok e0)
      | tt => (st, .error ⟨"Expresión simple no válida: " ++ ttDebug tt,
          token.line, token.column⟩)

/-- `Parser::parse_expresion` (delegates to the full-line parser at the
current token's line). -/
def parseExpresion : Nat → ParserSt → PRes Expresion
  | 0, st => (st, .error ⟨"fuel", 0, 0⟩)
  | fuel + 1, st =>
    match st.current with
    | some token => parseExpresionLineaCompleta fuel st token.line
    | none => (st, .error ⟨"Se esperaba una expresión", 0, 0⟩)

/-- The loop of `Parser::parse_lista_argumentos`, with its accumulator. -/
def parseListaArgumentosLoop : Nat → ParserSt → List Expresion → PRes (List Expresion)
  | 0, st, _ => (st, .error ⟨"fuel", 0, 0⟩)
  | fuel + 1, st, acc =>
    match st.current with
    | none => (st, .ok acc)
    | some token =>
      if token.tokenType == .ClosedParenthesis then (st, .ok acc)
      else
        match parseExpresion fuel st with
        | (st1, .error e) => (st1, .error e)
        | (st1, .ok e0) =>
          let st2 := if coincidir st1 .Comma then avanzar st1 else st1
          parseListaArgumentosLoop fuel st2 (acc ++ [e0])

/-- `Parser::parse_si`. -/
def parseSi : Nat → ParserSt → PRes Instruccion
  | 0, st => (st, .error ⟨"fuel", 0, 0⟩)
  | fuel + 1, st =>
    let st0 := avanzar st
    match parseExpresion fuel st0 with
    | (st1, .error e) => (st1, .error e)
    | (st1, .ok cond) =>
      let r1 := parseSiEntonces fuel st1 []
      let r2 := parseCuerpoLoop fuel r1.1 []
      (r2.1, .ok (.Si cond r1.2 r2.2))

/-- The `entonces` loop of `parse_si`: stops consuming a `sino`, stops
(without consuming) at a `Dedent`, skips `Indent`, collects instructions,
and skips one token on a failed instruction. -/
def parseSiEntonces : Nat → ParserSt → List Instruccion → ParserSt × List Instruccion
  | 0, st, acc => (st, acc)
  | fuel + 1, st, acc =>
    match st.current with
    | none => (st, acc)
    | some token =>
      if token.tokenType == .ControlSentence && token.value == "sino" then (avanzar st, acc)
      else if token.tokenType == .Dedent then (st, acc)
      else if token.tokenType == .Indent || token.tokenType == .Dedent then
        parseSiEntonces fuel (avanzar st) acc
      else
        match parseInstruccion fuel st with
        | (st1, .ok instr) => parseSiEntonces fuel st1 (acc ++ [instr])
        | (st1, .error _) => parseSiEntonces fuel (avanzar st1) acc

/-- The body loop shared verbatim by the `sino` part of `parse_si`,
`parse_mientras` and `parse_repetir` (the three loops are textually
identical in the source): stops (without consuming) at a `Dedent`, skips
`Indent`, collects instructions, and skips one token on a failed
instruction. -/
def parseCuerpoLoop : Nat → ParserSt → List Instruccion → ParserSt × List Instruccion
  | 0, st, acc => (st, acc)
  | fuel + 1, st, acc =>
    match st.current with
    | none => (st, acc)
    | some token =>
      if token.tokenType == .Dedent then (st, acc)
      else if token.tokenType == .Indent || token.tokenType == .Dedent then
        parseCuerpoLoop fuel (avanzar st) acc
      else
        match parseInstruccion fuel st with
        | (st1, .ok instr) => parseCuerpoLoop fuel st1 (acc ++ [instr])
        | (st1, .error _) => parseCuerpoLoop fuel (avanzar st1) acc

/-- `Parser::parse_mientras`. -/
def parseMientras : Nat → ParserSt → PRes Instruccion
  | 0, st => (st, .error ⟨"fuel", 0, 0⟩)
  | fuel + 1, st =>
    let st0 := avanzar st
    let condRes : PRes Expresion :=
      if coincidir st0 .OpenedParenthesis then
        match parseExpresion fuel (avanzar st0) with
        | (st1, .error e) => (st1, .error e)
        | (st1, .ok cond) =>
          match consumir st1 .ClosedParenthesis "Esperado ')'" with
          | (st2, .error e) => (st2, .error e)
          | (st2, .ok _) => (st2, .ok cond)
      else parseExpresion fuel st0
    match condRes with
    | (st1, .error e) => (st1, .error e)
    | (st1, .ok cond) =>
      let r := parseCuerpoLoop fuel st1 []
      (r.1, .ok (.Mientras cond r.2))

/-- `Parser::parse_repetir`. -/
def parseRepetir : Nat → ParserSt → PRes Instruccion
  | 0, st => (st, .error ⟨"fuel", 0, 0⟩)
  | fuel + 1, st =>
    let st0 := avanzar st
    match parseExpresion fuel st0 with
    | (st1, .error e) => (st1, .error e)
    | (st1, .ok cond) =>
      let r := parseCuerpoLoop fuel st1 []
      (r.1, .ok (.Repetir cond r.2))

end

/-- `Parser::parse_variable`. -/
def parseVariable (st : ParserSt) : PRes Variable :=
  match st.current with
  | none => (st, .error ⟨"Esperado nombre de variable", 0, 0⟩)
  | some token =>
    let nombre := token.value
    let st1 := avanzar st
    match consumir st1 .Declaration "Esperado ':'" with
    | (st2, .error e) => (st2, .error e)
    | (st2, .ok _) =>
      match st2.current with
      | none => (st2, .error ⟨"Esperado tipo de dato", 0, 0⟩)
      | some t => (avanzar st2, .ok ⟨nombre, t.value⟩)

/-- The `variables` loop shared verbatim by `parse_proceso` and
`parse_robots`: stops (without consuming) at the keyword `comenzar`,
skips `Indent`/`Dedent`, parses `Identifier`-led declarations (errors
propagate), and skips any other token. -/
def parseVarsLoop : Nat → ParserSt → List Variable → PRes (List Variable)
  | 0, st, _ => (st, .error ⟨"fuel", 0, 0⟩)
  | fuel + 1, st, acc =>
    match st.current with
    | none => (st, .ok acc)
    | some token =>
      if token.tokenType == .Keyword && token.value == "comenzar" then (st, .ok acc)
      else if token.tokenType == .Indent || token.tokenType == .Dedent then
        parseVarsLoop fuel (avanzar st) acc
      else if token.tokenType == .Identifier then
        match parseVariable st with
        | (st1, .error e) => (st1, .error e)
        | (st1, .ok v) => parseVarsLoop fuel st1 (acc ++ [v])
      else parseVarsLoop fuel (avanzar st) acc

/-- The instruction-body loop shared verbatim by `parse_proceso`,
`parse_robots` and the main block of `parse_programa`: consumes the
keyword `fin` and stops, skips `Indent`/`Dedent`, collects instructions,
and skips one token on a failed instruction. -/
def parseInstrLoop : Nat → ParserSt → List Instruccion → ParserSt × List Instruccion
  | 0, st, acc => (st, acc)
  | fuel + 1, st, acc =>
    match st.current with
    | none => (st, acc)
    | some token =>
      if token.tokenType == .Keyword && token.value == "fin" then (avanzar st, acc)
      else if token.tokenType == .Indent || token.tokenType == .Dedent then
        parseInstrLoop fuel (avanzar st) acc
      else
        match parseInstruccion fuel st with
        | (st1, .ok instr) => parseInstrLoop fuel st1 (acc ++ [instr])
        | (st1, .error _) => parseInstrLoop fuel (avanzar st1) acc

/-- The parameter-list loop of `Parser::parse_proceso`. -/
def parseParamsLoop : Nat → ParserSt → List Parametro → PRes (List Parametro)
  | 0, st, _ => (st, .error ⟨"fuel", 0, 0⟩)
  | fuel + 1, st, acc =>
    match st.current with
    | none => (st, .ok acc)
    | some token =>
      if token.tokenType == .ClosedParenthesis then (avanzar st, .ok acc)
      else
        let tipoParam := if token.tokenType == .ParameterType then token.value else "E"
        let st1 := if token.tokenType == .ParameterType then avanzar st else st
        match st1.current with
        | none => (st1, .error ⟨"Esperado nombre del parámetro", 0, 0⟩)
        | some t =>
          let nombreParam := t.value
          let st2 := avanzar st1
          match consumir st2 .Declaration "Esperado ':'" with
          | (st3, .error e) => (st3, .error e)
          | (st3, .ok _) =>
            match st3.current with
            | none => (st3, .error ⟨"Esperado tipo de dato", 0, 0⟩)
            | some td =>
              let st4 := avanzar st3
              let st5 := if coincidir st4 .Comma then avanzar st4 else st4
              parseParamsLoop fuel st5 (acc ++ [⟨tipoParam, nombreParam, td.value⟩])

/-- `Parser::parse_proceso`. -/
def parseProceso (fuel : Nat) (st : ParserSt) : PRes Proceso :=
  match consumir st .Keyword "Esperado 'proceso'" with
  | (st1, .error e) => (st1, .error e)
  | (st1, .ok _) =>
    match st1.current with
    | none => (st1, .error ⟨"Esperado nombre del proceso", 0, 0⟩)
    | some nameTok =>
      let nombre := nameTok.value
      let st2 := avanzar st1
      let paramsRes : PRes (List Parametro) :=
        if coincidir st2 .OpenedParenthesis then
          parseParamsLoop fuel (avanzar st2) []
        else (st2, .ok [])
      match paramsRes with
      | (st3, .error e) => (st3, .error e)
      | (st3, .ok parametros) =>
        let varsRes : PRes (List Variable) :=
          match st3.current with
          | some t =>
            if t.tokenType == .Keyword && t.value == "variables" then
              parseVarsLoop fuel (avanzar st3) []
            else (st3, .ok [])
          | none => (st3, .ok [])
        match varsRes with
        | (st4, .error e) => (st4, .error e)
        | (st4, .ok vars) =>
          let instrRes : ParserSt × List Instruccion :=
            match st4.current with
            | some t =>
              if t.tokenType == .Keyword && t.value == "comenzar" then
                parseInstrLoop fuel (avanzar st4) []
              else (st4, [])
            | none => (st4, [])
          (instrRes.1, .ok ⟨nombre, parametros, vars, instrRes.2⟩)

/-- The loop of `Parser::parse_procesos`. -/
def parseProcesos : Nat → ParserSt → List Proceso → PRes (List Proceso)
  | 0, st, _ => (st, .error ⟨"fuel", 0, 0⟩)
  | fuel + 1, st, acc =>
    match st.current with
    | none => (st, .ok acc)
    | some token =>
      if token.tokenType == .Indent || token.tokenType == .Dedent then
        parseProcesos fuel (avanzar st) acc
      else if token.tokenType == .Keyword && token.value == "proceso" then
        match parseProceso fuel st with
        | (st1, .error e) => (st1, .error e)
        | (st1, .ok p) => parseProcesos fuel st1 (acc ++ [p])
      else (st, .ok acc)

/-- The four-coordinate loop of `Parser::parse_areas` (`for _ in 0..4`):
an iteration with no current token does nothing, a non-number breaks. -/
def parseAreaNums : Nat → ParserSt → List Int → ParserSt × List Int
  | 0, st, nums => (st, nums)
  | i + 1, st, nums =>
    match st.current with
    | none => parseAreaNums i st nums
    | some t =>
      if t.tokenType == .Num then
        let nums' := nums ++ [i32OrZero t.value]
        let st1 := avanzar st
        let st2 :=
          if nums'.length < 4 then
            if coincidir st1 .Comma then avanzar st1 else st1
          else st1
        parseAreaNums i st2 nums'
      else (st, nums)

/-- `Parser::parse_areas`. -/
def parseAreas : Nat → ParserSt → List Area → PRes (List Area)
  | 0, st, _ => (st, .error ⟨"fuel", 0, 0⟩)
  | fuel + 1, st, acc =>
    match st.current with
    | none => (st, .ok acc)
    | some token =>
      if token.tokenType == .Identifier then
        let nombre := token.value
        let st1 := avanzar st
        match consumir st1 .Declaration "Esperado ':'" with
        | (st2, .error e) => (st2, .error e)
        | (st2, .ok _) =>
          match st2.current with
          | none => (st2, .error ⟨"Esperado tipo de área", 0, 0⟩)
          | some t =>
            let tipo := t.value
            let st3 := avanzar st2
            match consumir st3 .OpenedParenthesis "Esperado '('" with
            | (st4, .error e) => (st4, .error e)
            | (st4, .ok _) =>
              let r := parseAreaNums 4 st4 []
              match consumir r.1 .ClosedParenthesis "Esperado ')'" with
              | (st6, .error e) => (st6, .error e)
              | (st6, .ok _) =>
                if r.2.length == 4 then
                  parseAreas fuel st6 (acc ++
                    [⟨nombre, tipo, (r.2.getD 0 0, r.2.getD 1 0, r.2.getD 2 0, r.2.getD 3 0)⟩])
                else parseAreas fuel st6 acc
      else if token.tokenType == .Indent || token.tokenType == .Dedent then
        parseAreas fuel (avanzar st) acc
      else (st, .ok acc)

/-- `Parser::parse_robots`. -/
def parseRobots : Nat → ParserSt → List String → List Robot →
    PRes (List String × List Robot)
  | 0, st, _, _ => (st, .error ⟨"fuel", 0, 0⟩)
  | fuel + 1, st, decl, defs =>
    match st.current with
    | none => (st, .ok (decl, defs))
    | some token =>
      if token.tokenType == .Keyword && token.value == "robot" then
        let st1 := avanzar st
        match st1.current with
        | none => (st1, .error ⟨"Esperado nombre del robot", 0, 0⟩)
        | some nameTok =>
          let nombre := nameTok.value
          let st2 := avanzar st1
          let varsRes : PRes (List Variable) :=
            match st2.current with
            | some t =>
              if t.tokenType == .Keyword && t.value == "variables" then
                parseVarsLoop fuel (avanzar st2) []
              else (st2, .ok [])
            | none => (st2, .ok [])
          match varsRes with
          | (st3, .error e) => (st3, .error e)
          | (st3, .ok vars) =>
            let instrRes : ParserSt × List Instruccion :=
              match st3.current with
              | some t =>
                if t.tokenType == .Keyword && t.value == "comenzar" then
                  parseInstrLoop fuel (avanzar st3) []
                else (st3, [])
              | none => (st3, [])
            parseRobots fuel instrRes.1 (decl ++ [nombre])
              (defs ++ [⟨nombre, vars, instrRes.2⟩])
      else if token.tokenType == .Indent || token.tokenType == .Dedent then
        parseRobots fuel (avanzar st) decl defs
      else (st, .ok (decl, defs))

/-- The robot-instantiation loop inside the `variables` section of
`Parser::parse_programa`. -/
def parseVarSectionLoop : Nat → ParserSt → List String → List RobotInstanciado →
    PRes (List RobotInstanciado)
  | 0, st, _, _ => (st, .error ⟨"fuel", 0, 0⟩)
  | fuel + 1, st, decl, acc =>
    match st.current with
    | none => (st, .ok acc)
    | some t =>
      if t.tokenType == .Indent || t.tokenType == .Dedent then
        parseVarSectionLoop fuel (avanzar st) decl acc
      else if t.tokenType == .Keyword && t.value == "comenzar" then (st, .ok acc)
      else if t.tokenType == .Identifier then
        let nombreInstancia := t.value
        let st1 := avanzar st
        match st1.current with
        | none => (st1, .error ⟨"Declaración de robot incompleta", t.line, t.column⟩)
        | some nextTok =>
          if nextTok.tokenType == .Declaration then
            let st2 := avanzar st1
            match st2.current with
            | none => (st2, .error ⟨"Declaración de robot incompleta", t.line, t.column⟩)
            | some tipoTok =>
              if tipoTok.tokenType == .Identifier then
                let tipoRobot := tipoTok.value
                let st3 := avanzar st2
                if decl.contains tipoRobot then
                  parseVarSectionLoop fuel st3 decl (acc ++ [⟨nombreInstancia, tipoRobot⟩])
                else
                  (st3, .error ⟨"Tipo de robot no definido: " ++ tipoRobot,
                    tipoTok.line, tipoTok.column⟩)
              else
                (st2, .error ⟨"Esperado tipo de robot después de ':'",
                  tipoTok.line, tipoTok.column⟩)
          else
            (st1, .error ⟨"Esperado ':' en declaración de robot",
              nextTok.line, nextTok.column⟩)
      else parseVarSectionLoop fuel (avanzar st) decl acc

/-- Accumulators of the section loop of `Parser::parse_programa`. -/
structure Secciones where
  procesos : List Proceso
  areas : List Area
  robotsDeclarados : List String
  robotsDefinidos : List Robot
  robotsInstanciados : List RobotInstanciado
deriving Repr

/-- The section loop of `Parser::parse_programa`: dispatches on the
section keywords, ignores stray `Indent`/`Dedent`, stops at `comenzar`
(not consumed) or at any other token. -/
def parseSections : Nat → ParserSt → Secciones → PRes Secciones
  | 0, st, _ => (st, .error ⟨"fuel", 0, 0⟩)
  | fuel + 1, st, acc =>
    match st.current with
    | none => (st, .ok acc)
    | some token =>
      match token.tokenType with
      | .Keyword =>
        if token.value == "procesos" then
          match parseProcesos fuel (avanzar st) [] with
          | (st1, .error e) => (st1, .error e)
          | (st1, .ok ps) => parseSections fuel st1 { acc with procesos := ps }
        else if token.value == "areas" then
          match parseAreas fuel (avanzar st) [] with
          | (st1, .error e) => (st1, .error e)
          | (st1, .ok as) => parseSections fuel st1 { acc with areas := as }
        else if token.value == "robots" then
          match parseRobots fuel (avanzar st) [] [] with
          | (st1, .error e) => (st1, .error e)
          | (st1, .ok r) =>
            parseSections fuel st1
              { acc with robotsDeclarados := r.1, robotsDefinidos := r.2 }
        else if token.value == "variables" then
          match parseVarSectionLoop fuel (avanzar st) acc.robotsDeclarados
              acc.robotsInstanciados with
          | (st1, .error e) => (st1, .error e)
          | (st1, .ok inst) => parseSections fuel st1 { acc with robotsInstanciados := inst }
        else if token.value == "comenzar" then (st, .ok acc)
        else parseSections fuel (avanzar st) acc
      | .Indent => parseSections fuel (avanzar st) acc
      | .Dedent => parseSections fuel (avanzar st) acc
      | _ => (st, .ok acc)

/-- Accumulators of the main-block loop of `Parser::parse_programa`. -/
structure MainAcc where
  instrucciones : List Instruccion
  asignaciones : List AsignacionArea
  inicializaciones : List InicializacionRobot
deriving Repr

/-- The main-block loop of `Parser::parse_programa`: consumes `fin` and
stops, skips `Indent`/`Dedent`, collects instructions (classifying
`AsignarArea`/`Iniciar` calls), and on a failed instruction skips one
token past the failure state and continues. -/
def parseMainLoop : Nat → ParserSt → MainAcc → ParserSt × MainAcc
  | 0, st, acc => (st, acc)
  | fuel + 1, st, acc =>
    match st.current with
    | none => (st, acc)
    | some token =>
      if token.tokenType == .Keyword && token.value == "fin" then (avanzar st, acc)
      else if token.tokenType == .Indent || token.tokenType == .Dedent then
        parseMainLoop fuel (avanzar st) acc
      else
        match parseInstruccion fuel st with
        | (st1, .ok instr) =>
          match instr with
          | .LlamadaFuncion nombre args =>
            if nombre == "AsignarArea" && args.length == 2 then
              parseMainLoop fuel st1
                { acc with
                  instrucciones := acc.instrucciones ++ [instr],
                  asignaciones := acc.asignaciones ++
                    [⟨args.getD 0 (.Numero 0), args.getD 1 (.Numero 0)⟩] }
            else if nombre == "Iniciar" && args.length == 3 then
              parseMainLoop fuel st1
                { acc with
                  instrucciones := acc.instrucciones ++ [instr],
                  inicializaciones := acc.inicializaciones ++
                    [⟨args.getD 0 (.Numero 0), args.getD 1 (.Numero 0),
                      args.getD 2 (.Numero 0)⟩] }
            else
              parseMainLoop fuel st1
                { acc with instrucciones := acc.instrucciones ++ [instr] }
          | _ =>
            parseMainLoop fuel st1
              { acc with instrucciones := acc.instrucciones ++ [instr] }
        | (st1, .error _) => parseMainLoop fuel (avanzar st1) acc

/-- `Parser::parse_programa` (the instance-binding warnings it prints
have no effect on the returned value and are omitted). -/
def parsePrograma (fuel : Nat) (st : ParserSt) : PRes Program :=
  match consumir st .Keyword "Esperado 'programa'" with
  | (st1, .error e) => (st1, .error e)
  | (st1, .ok _) =>
    match st1.current with
    | none => (st1, .error ⟨"Esperado nombre del programa", 0, 0⟩)
    | some nameTok =>
      let nombre := nameTok.value
      let st2 := avanzar st1
      match parseSections fuel st2 ⟨[], [], [], [], []⟩ with
      | (st3, .error e) => (st3, .error e)
      | (st3, .ok secs) =>
        let mainRes : ParserSt × MainAcc :=
          match st3.current with
          | some token =>
            if token.tokenType == .Keyword && token.value == "comenzar" then
              parseMainLoop fuel (avanzar st3) ⟨[], [], []⟩
            else (st3, ⟨[], [], []⟩)
          | none => (st3, ⟨[], [], []⟩)
        let robotsDefinidos :=
          if mainRes.2.instrucciones.isEmpty then secs.robotsDefinidos
          else secs.robotsDefinidos ++ [⟨"main", [], mainRes.2.instrucciones⟩]
        (mainRes.1, .ok ⟨nombre, secs.procesos, secs.areas, secs.robotsDeclarados,
          robotsDefinidos, secs.robotsInstanciados, mainRes.2.asignaciones,
          mainRes.2.inicializaciones⟩)

/-- Fuel bound for a whole parse. -/
def parseFuel (tokens : List Token) : Nat := 10 * tokens.length + 100

/-- `Parser::parse` on a token stream. -/
def parseTokens (tokens : List Token) : Except CompilerError Program :=
  (parsePrograma (parseFuel tokens) (newParser tokens)).2


/- ### Semantic analyzer: `src/lib/semanticizer/analizer.rs` over the AST of
`src/lib/parser/ast.rs`.

`HashMap`s are modelled as association lists and `HashSet`s as
duplicate-free lists, both in insertion order (`insertAssoc` replaces an
existing binding in place, as `HashMap::insert` does; `insertSet` is a
no-op on an already present element, as `HashSet::insert` is).
`scope_stack : Vec<HashMap<..>>` is modelled with the innermost scope (the
Rust `Vec`'s LAST element) at the HEAD of the list, so the global scope is
the last element; `lookup_variable`'s `iter().rev()` walk is therefore a
front-to-back walk here.  Where `exit_scope` reads "some" entry of an
arbitrary-order `HashMap` iteration, the model takes the first entry in
insertion order.  The `{:?}` debug renderings interpolated into two error
messages are not modelled; only the static message prefix is kept. -/

/-- `Parameter` of `ast.rs` (field `param_type` becomes `paramType`). -/
structure Parameter where
  direction : String
  name : String
  paramType : String
deriving DecidableEq, Repr

/-- `Condition` of `ast.rs`. -/
structure Condition where
  expression : String
deriving DecidableEq, Repr

/-- `ASTNode` of `ast.rs`, the AST consumed by the semantic analyzer.  The
Rust field `variables` is rendered `vars`. -/
inductive ASTNode where
  | Program (name : String) (body : List ASTNode)
  | ProcesosSection (procesos : List ASTNode)
  | Proceso (name : String) (parameters : List Parameter)
      (vars : Option ASTNode) (body : List ASTNode)
  | Parameter (direction : String) (name : String) (paramType : String)
  | AreasSection (areas : List ASTNode)
  | AreaDefinition (name : String) (areaType : String) (dimensions : List String)
  | RobotsSection (robots : List ASTNode)
  | Robot (name : String) (vars : Option (List ASTNode)) (body : List ASTNode)
  | VariablesSection (declarations : List ASTNode)
  | VariableDeclaration (name : String) (variableType : String)
  | MainBlock (body : List ASTNode)
  | IfStatement (condition : Condition) (consequent : List ASTNode)
      (alternate : Option (List ASTNode))
  | WhileStatement (condition : Condition) (body : List ASTNode)
  | RepeatStatement (count : String) (body : List ASTNode)
  | Assignment (target : Option String) (operator : String) (value : String)
  | ElementalInstruction (instruction : String) (parameters : List String)
  | ProcessCall (name : String) (parameters : List String)
  | Condition (expression : String)
  | Operator (operator : String)
  | Value (value : String)
deriving Repr

/-- `RobotCommStats` of `analizer.rs`. -/
structure RobotCommStats where
  sends : Nat
  receives : Nat
  total : Nat
deriving DecidableEq, Repr

/-- `CommunicationStats` of `analizer.rs` (`sends`, `receives` and
`robot_communications` are `HashMap`s, `connections` a `HashSet`). -/
structure CommunicationStats where
  sends : List (String × Nat)
  receives : List (String × Nat)
  connections : List String
  robotCommunications : List (String × RobotCommStats)
deriving DecidableEq, Repr

/-- `ProcessInfo` of `analizer.rs` (Rust field `variables` is `vars`,
`body_statements` is `bodyStatements`). -/
structure ProcessInfo where
  name : String
  parameters : List Parameter
  vars : List ASTNode
  bodyStatements : Nat
  scope : String
deriving Repr

/-- `ProcessCallInfo` of `analizer.rs`. -/
structure ProcessCallInfo where
  name : String
  parameters : List String
  line : Nat
  isValid : Bool
deriving DecidableEq, Repr

/-- `AreaBounds` of `analizer.rs`. -/
structure AreaBounds where
  x1 : Int
  y1 : Int
  x2 : Int
  y2 : Int
deriving DecidableEq, Repr

/-- `AreaInfo` of `analizer.rs`. -/
structure AreaInfo where
  name : String
  areaType : String
  dimensions : List String
  bounds : AreaBounds
deriving DecidableEq, Repr

/-- `ExpressionValue` of `analizer.rs`. -/
inductive ExpressionValue where
  | Variable (name : String)
  | Number (n : Int)
  | Boolean (b : Bool)
  | BinaryOperation (left : ExpressionValue) (operator : String)
      (right : ExpressionValue)
  | UnaryOperation (operator : String) (operand : ExpressionValue)
  | ProcessCall (name : String) (parameters : List ExpressionValue)
deriving Repr

/-- `ExecutableInstruction` of `analizer.rs`. -/
inductive ExecutableInstruction where
  | Elemental (instruction : String) (parameters : List String) (line : Nat)
  | ProcessCall (processName : String) (parameters : List String) (line : Nat)
  | If (condition : Condition) (consequent : List ExecutableInstruction)
      (alternate : List ExecutableInstruction) (line : Nat)
  | While (condition : Condition) (body : List ExecutableInstruction) (line : Nat)
  | Repeat (count : String) (body : List ExecutableInstruction) (line : Nat)
  | Assignment (target : Option String) (operator : String)
      (value : ExpressionValue) (line : Nat)
  | Expression (expression : ExpressionValue) (line : Nat)
  | Unknown (original : ASTNode)
deriving Repr

/-- `VariableInfo` of `analizer.rs` (`var_type` becomes `varType`). -/
structure VariableInfo where
  name : String
  varType : String
  value : Option ExpressionValue
deriving Repr

/-- `RobotExecutable` of `analizer.rs`. -/
structure RobotExecutable where
  name : String
  instructions : List ExecutableInstruction
  position : Int × Int
  direction : String
  bag : Nat × Nat
  active : Bool
deriving Repr

/-- `ProcessExecutable` of `analizer.rs`. -/
structure ProcessExecutable where
  name : String
  parameters : List Parameter
  instructions : List ExecutableInstruction
deriving Repr

/-- `ExecutableCode` of `analizer.rs` (the Rust field `variables`, a
`HashMap<String, VariableInfo>`, is `vars`). -/
structure ExecutableCode where
  programa : String
  areas : List AreaInfo
  robots : List RobotExecutable
  procesos : List ProcessExecutable
  main : List ExecutableInstruction
  vars : List (String × VariableInfo)
deriving Repr

/-- `SymbolInfo` of `analizer.rs` (`var_type` is `varType`, `is_constant`
is `isConstant`). -/
structure SymbolInfo where
  name : String
  varType : String
  scope : String
  initialized : Bool
  isConstant : Bool
deriving DecidableEq, Repr

/-- `AnalysisSummary` of `analizer.rs`. -/
structure AnalysisSummary where
  totalInstructions : Nat
  totalProcesses : Nat
  totalProcessCalls : Nat
  validProcessCalls : Nat
  totalErrors : Nat
  totalVariables : Nat
  totalRobots : Nat
  totalAreas : Nat
  totalConexiones : Nat
deriving DecidableEq, Repr

/-- `RobotCommSummary` of `analizer.rs`. -/
structure RobotCommSummary where
  name : String
  sends : Nat
  receives : Nat
  total : Nat
  isCommunicating : Bool
deriving DecidableEq, Repr

/-- `CommunicationResult` of `analizer.rs`. -/
structure CommunicationResult where
  totalSends : Nat
  totalReceives : Nat
  totalConnections : Nat
  effectiveConnections : Nat
  communicatingEntities : List String
  totalCommunicatingRobots : Nat
  byRobot : List RobotCommSummary
  totalConexiones : Nat
deriving DecidableEq, Repr

/-- `SemanticAnalysisResult` of `analizer.rs`. -/
structure SemanticAnalysisResult where
  symbolTable : List SymbolInfo
  processes : List ProcessInfo
  processCalls : List ProcessCallInfo
  executable : ExecutableCode
  errors : List CompilerError
  success : Bool
  summary : AnalysisSummary
  communicationStats : CommunicationResult
deriving Repr

/-- `ExpressionContext` of `analizer.rs`. -/
structure ExpressionContext where
  currentExpression : List ExpressionValue
  inAssignment : Bool
  assignmentTarget : Option String
  currentOperator : Option String
deriving Repr

/-- One lexical scope: the association list modelling one
`HashMap<String, SymbolInfo>` of `scope_stack`. -/
abbrev Scope := List (String × SymbolInfo)

/-- The mutable fields of `SemanticAnalyzer` (the Rust field
`message_communications` keeps its name, `processes_info` is
`processesInfo`, and so on). -/
structure AnalyzerSt where
  symbolTable : List SymbolInfo
  scopeStack : List Scope
  errors : List CompilerError
  currentScope : String
  processesInfo : List ProcessInfo
  processCalls : List ProcessCallInfo
  executableCode : ExecutableCode
  messageCommunications : CommunicationStats
  expressionContext : Option ExpressionContext
  processCallsInExpressions : List (String × List ExpressionValue)
deriving Repr

/-- `self.errors.push(CompilerError::new(msg, 0, 0))` — every error pushed
by the analyzer carries line 0, column 0. -/
def pushErr (st : AnalyzerSt) (msg : String) : AnalyzerSt :=
  { st with errors := st.errors ++ [⟨msg, 0, 0⟩] }

/-- `str::starts_with` on the ASCII strings the analyzer handles. -/
def strStartsWith (s pre : String) : Bool :=
  pre.data.isPrefixOf s.data

/-- Remove every occurrence of `pat` from a character list, left to right
(`str::replace(pat, "")` for a non-empty `pat`); fuel-indexed, one unit of
fuel per input character. -/
def replaceRemoveAux (pat : List Char) : Nat → List Char → List Char
  | 0, l => l
  | _ + 1, [] => []
  | fuel + 1, c :: rest =>
    if pat.isPrefixOf (c :: rest) then
      replaceRemoveAux pat fuel (List.drop pat.length (c :: rest))
    else
      c :: replaceRemoveAux pat fuel rest

/-- `s.replace(pat, "")` for the non-empty patterns `"robot:"`,
`"proceso:"` used by `get_current_entity_name`. -/
def strReplaceEmpty (s pat : String) : String :=
  (replaceRemoveAux pat.data (s.data.length + 1) s.data).asString

/-- `SemanticAnalyzer::get_current_entity_name`. -/
def getCurrentEntityName (st : AnalyzerSt) : String :=
  if strStartsWith st.currentScope "robot:" then
    strReplaceEmpty st.currentScope "robot:"
  else if strStartsWith st.currentScope "proceso:" then
    strReplaceEmpty st.currentScope "proceso:"
  else if st.currentScope == "main" then "main"
  else "global"

/-- `*map.entry(k).or_insert(0) += 1` on a counter `HashMap`. -/
def bumpCount : List (String × Nat) → String → List (String × Nat)
  | [], k => [(k, 1)]
  | (a, n) :: rest, k =>
    if a == k then (a, n + 1) :: rest else (a, n) :: bumpCount rest k

/-- `HashSet::insert`: a no-op when the element is already present,
appended otherwise. -/
def insertSet (s : List String) (k : String) : List String :=
  if s.contains k then s else s ++ [k]

/-- `HashMap::insert`: replace an existing binding in place, append a new
one. -/
def insertAssoc {β : Type} : List (String × β) → String → β → List (String × β)
  | [], k, v => [(k, v)]
  | (a, b) :: rest, k, v =>
    if a == k then (k, v) :: rest else (a, b) :: insertAssoc rest k v

/-- The `match comm_type` body of
`SemanticAnalyzer::update_robot_communication_stats`, followed by the
unconditional `total = sends + receives`. -/
def applyCommType (s : RobotCommStats) (commType : String) : RobotCommStats :=
  let s1 :=
    if commType == "send" then { s with sends := s.sends + 1 }
    else if commType == "receive" then { s with receives := s.receives + 1 }
    else s
  { s1 with total := s1.sends + s1.receives }

/-- `SemanticAnalyzer::update_robot_communication_stats`:
`entry(entity).or_insert({0,0,0})`, then `applyCommType`. -/
def updateRobotComm : List (String × RobotCommStats) → String → String →
    List (String × RobotCommStats)
  | [], entity, commType => [(entity, applyCommType ⟨0, 0, 0⟩ commType)]
  | (k, s) :: rest, entity, commType =>
    if k == entity then (k, applyCommType s commType) :: rest
    else (k, s) :: updateRobotComm rest entity commType

/-- `SemanticAnalyzer::register_message_send` (its `sender: &str`
parameter is unused in the source: the sender is always
`get_current_entity_name`). -/
def registerMessageSend (st : AnalyzerSt) (target : Option String) : AnalyzerSt :=
  let senderName := getCurrentEntityName st
  let comm1 := { st.messageCommunications with
                   sends := bumpCount st.messageCommunications.sends senderName }
  let comm2 :=
    match target with
    | some t => { comm1 with
                    connections := insertSet comm1.connections (senderName ++ "->" ++ t) }
    | none => comm1
  let comm3 := { comm2 with
                   robotCommunications := updateRobotComm comm2.robotCommunications senderName "send" }
  { st with messageCommunications := comm3 }

/-- `SemanticAnalyzer::register_message_receive` (its `receiver: &str`
parameter is likewise unused in the source). -/
def registerMessageReceive (st : AnalyzerSt) (source : Option String) : AnalyzerSt :=
  let receiverName := getCurrentEntityName st
  let comm1 := { st.messageCommunications with
                   receives := bumpCount st.messageCommunications.receives receiverName }
  let comm2 :=
    match source with
    | some s => { comm1 with
                    connections := insertSet comm1.connections (s ++ "->" ++ receiverName) }
    | none => comm1
  let comm3 := { comm2 with
                   robotCommunications := updateRobotComm comm2.robotCommunications receiverName "receive" }
  { st with messageCommunications := comm3 }

/-- `SemanticAnalyzer::extract_parameter_value`. -/
def extractParameterValue (param : String) : Option String := some param

/-- `SemanticAnalyzer::analyze_message_communication`, taken on the
`instruction`/`parameters` fields of the `ElementalInstruction` node that
`visit_elemental_instruction` rebuilds verbatim before calling it. -/
def analyzeMessageCommunication (st : AnalyzerSt) (instruction : String)
    (parameters : List String) : AnalyzerSt :=
  if instruction == "EnviarMensaje" then
    let target :=
      match parameters with
      | p :: _ => extractParameterValue p
      | [] => none
    registerMessageSend st target
  else if instruction == "RecibirMensaje" then
    let source :=
      match parameters with
      | p :: _ => extractParameterValue p
      | [] => none
    registerMessageReceive st source
  else st

/-- `sends.get(name)` with the `or 0` default used throughout
`get_communication_stats`. -/
def sendsCount (st : AnalyzerSt) (name : String) : Nat :=
  (List.lookup name st.messageCommunications.sends).getD 0

/-- `receives.get(name).map_or(false, |&c| c > 0)` reads as
`0 < receivesCount st name`. -/
def receivesCount (st : AnalyzerSt) (name : String) : Nat :=
  (List.lookup name st.messageCommunications.receives).getD 0

/-- `conn.split("->")` worker over characters: the accumulator holds the
current fragment reversed. -/
def splitArrowAux : List Char → List Char → List (List Char)
  | acc, [] => [acc.reverse]
  | acc, [c] => [(c :: acc).reverse]
  | acc, c :: d :: rest =>
    if c == '-' && d == '>' then acc.reverse :: splitArrowAux [] rest
    else splitArrowAux (c :: acc) (d :: rest)

/-- `conn.split("->").collect::<Vec<&str>>()`. -/
def splitArrow (s : String) : List String :=
  (splitArrowAux [] s.data).map List.asString

/-- The filter closure of `get_communication_stats` (also re-inlined in
`calculate_total_conexiones`): a connection counts as effective iff it
splits on `"->"` into exactly two parts and the receiver half has a
positive receive count. -/
def connectionIsEffective (st : AnalyzerSt) (conn : String) : Bool :=
  match splitArrow conn with
  | [_, receiver] => decide (0 < receivesCount st receiver)
  | _ => false

/-- The inner `for conn in connections` search of
`calculate_total_conexiones`. -/
def entityHasReceiver (st : AnalyzerSt) (entity : String) : Bool :=
  st.messageCommunications.connections.any (fun conn =>
    strStartsWith conn (entity ++ "->") && connectionIsEffective st conn)

/-- `SemanticAnalyzer::calculate_total_conexiones`. -/
def calculateTotalConexiones (st : AnalyzerSt) : Nat :=
  (st.messageCommunications.robotCommunications.foldl
    (fun acc p =>
      if 0 < p.2.sends then
        if entityHasReceiver st p.1 then insertSet acc p.1 else acc
      else acc) []).length

/-- `SemanticAnalyzer::get_communication_stats`. -/
def getCommunicationStats (st : AnalyzerSt) : CommunicationResult :=
  let totalSends := (st.messageCommunications.sends.map (fun p => p.2)).sum
  let totalReceives := (st.messageCommunications.receives.map (fun p => p.2)).sum
  let ce1 := st.messageCommunications.sends.foldl
    (fun acc p => if 0 < p.2 then insertSet acc p.1 else acc) []
  let ce := st.messageCommunications.receives.foldl
    (fun acc p => if 0 < p.2 then insertSet acc p.1 else acc) ce1
  let effective :=
    (st.messageCommunications.connections.filter (connectionIsEffective st)).length
  let byRobot := st.messageCommunications.robotCommunications.map
    (fun p => RobotCommSummary.mk p.1 p.2.sends p.2.receives p.2.total
      (decide (0 < p.2.total)))
  ⟨totalSends, totalReceives, st.messageCommunications.connections.length,
   effective, ce, ce.length, byRobot, calculateTotalConexiones st⟩

/-- `SemanticAnalyzer::enter_scope`. -/
def enterScope (st : AnalyzerSt) (scopeName : String) : AnalyzerSt :=
  { st with scopeStack := [] :: st.scopeStack, currentScope := scopeName }

/-- `SemanticAnalyzer::exit_scope`: pop only when more than one scope
remains, then take the scope name recorded in the first symbol of the new
top scope (the loop body runs at most once), leaving `current_scope`
unchanged on an empty top scope. -/
def exitScope (st : AnalyzerSt) : AnalyzerSt :=
  if 1 < st.scopeStack.length then
    match st.scopeStack with
    | _ :: rest =>
      match rest with
      | top :: _ =>
        match top with
        | (_, symbol) :: _ => { st with scopeStack := rest, currentScope := symbol.scope }
        | [] => { st with scopeStack := rest }
      | [] => { st with scopeStack := rest, currentScope := "global" }
    | [] => st
  else st

/-- `SemanticAnalyzer::declare_variable`: at most an error on a duplicate
name in the innermost scope, otherwise insert the new symbol both there
and at the end of the flat `symbol_table`.  (The Rust `unwrap` of the top
scope is modelled by the impossible-`[]` branch returning the state
unchanged.) -/
def declareVariable (st : AnalyzerSt) (name varType : String) (scope : String) :
    AnalyzerSt :=
  match st.scopeStack with
  | [] => st
  | top :: rest =>
    if (List.lookup name top).isSome then
      pushErr st ("Variable '" ++ name ++ "' ya declarada en este ámbito")
    else
      let symbol : SymbolInfo :=
        ⟨name, varType, scope, varType == "robot" || varType == "area", false⟩
      { st with
          scopeStack := (top ++ [(name, symbol)]) :: rest,
          symbolTable := st.symbolTable ++
            [⟨name, varType, scope, varType == "robot" || varType == "area", false⟩] }

/-- The scope-stack walk of `SemanticAnalyzer::lookup_variable`
(`iter().rev()`, i.e. innermost first). -/
def lookupVariableIn : List Scope → String → Option SymbolInfo
  | [], _ => none
  | scope :: rest, name =>
    match List.lookup name scope with
    | some s => some s
    | none => lookupVariableIn rest name

/-- `SemanticAnalyzer::lookup_variable`. -/
def lookupVariable (st : AnalyzerSt) (name : String) : Option SymbolInfo :=
  lookupVariableIn st.scopeStack name

/-- Set `initialized := true` on the binding of `name` in one scope. -/
def setInitializedEntry : Scope → String → Scope
  | [], _ => []
  | (k, s) :: rest, name =>
    if k == name then (k, { s with initialized := true }) :: rest
    else (k, s) :: setInitializedEntry rest name

/-- Write through the mutable reference returned by `lookup_variable`:
update the innermost scope that binds `name`. -/
def setInitializedIn : List Scope → String → List Scope
  | [], _ => []
  | scope :: rest, name =>
    if (List.lookup name scope).isSome then setInitializedEntry scope name :: rest
    else scope :: setInitializedIn rest name

/-- Apply `f` to the last element (the global scope of `scopeStack`). -/
def modifyLastScope : List Scope → (Scope → Scope) → List Scope
  | [], _ => []
  | [s], f => [f s]
  | s :: rest, f => s :: modifyLastScope rest f

/-- `SemanticAnalyzer::declare_process`: insert `"process:" ++ name` into
the global scope (`scope_stack.first_mut()`, the last element here).  Its
`parameters` argument is unused in the source. -/
def declareProcess (st : AnalyzerSt) (name : String) : AnalyzerSt :=
  { st with
      scopeStack := modifyLastScope st.scopeStack
        (fun sc => insertAssoc sc ("process:" ++ name)
          ⟨name, "process", "global", true, true⟩) }

/-- `SemanticAnalyzer::lookup_process`. -/
def lookupProcess (st : AnalyzerSt) (name : String) : Option SymbolInfo :=
  match st.scopeStack.getLast? with
  | some scope => List.lookup ("process:" ++ name) scope
  | none => none

/-- `SemanticAnalyzer::start_expression_context`. -/
def startExpressionContext (st : AnalyzerSt) (inAssignment : Bool)
    (target : Option String) : AnalyzerSt :=
  { st with expressionContext := some ⟨[], inAssignment, target, none⟩ }

/-- `SemanticAnalyzer::add_to_expression`. -/
def addToExpression (st : AnalyzerSt) (value : ExpressionValue) : AnalyzerSt :=
  match st.expressionContext with
  | some ctx =>
    let ctx2 := { ctx with currentExpression := ctx.currentExpression ++ [value] }
    { st with expressionContext := some ctx2 }
  | none => st

/-- `SemanticAnalyzer::add_operator_to_expression`. -/
def addOperatorToExpression (st : AnalyzerSt) (operator : String) : AnalyzerSt :=
  match st.expressionContext with
  | some ctx =>
    let ctx2 := { ctx with currentOperator := some operator }
    { st with expressionContext := some ctx2 }
  | none => st

/-- The `while expression_stack.len() > 1` fold of
`build_expression_from_context`, on the reversed stack (head = Rust
`Vec` top): pop right, pop left, push the binary node. -/
def buildFoldRev : Nat → List ExpressionValue → String → Option ExpressionValue
  | 0, _, _ => none
  | fuel + 1, right :: left :: rest, operator =>
    buildFoldRev fuel (.BinaryOperation left operator right :: rest) operator
  | _ + 1, [x], _ => some x
  | _ + 1, [], _ => none

/-- `SemanticAnalyzer::build_expression_from_context`. -/
def buildExpressionFromContext (st : AnalyzerSt) (ctx : ExpressionContext) :
    AnalyzerSt × Option ExpressionValue :=
  if ctx.currentExpression.length % 2 == 1 then
    let operator := ctx.currentOperator.getD "+"
    (st, buildFoldRev (ctx.currentExpression.length + 1)
      ctx.currentExpression.reverse operator)
  else
    (pushErr st "Expresión mal formada", none)

/-- `SemanticAnalyzer::end_expression_context` (`take()` clears the
context; a singleton expression is returned directly). -/
def endExpressionContext (st : AnalyzerSt) : AnalyzerSt × Option ExpressionValue :=
  match st.expressionContext with
  | some ctx =>
    let st1 := { st with expressionContext := none }
    if ctx.currentExpression.length == 1 then
      (st1, ctx.currentExpression.head?)
    else if ctx.currentExpression.isEmpty then
      (st1, none)
    else
      buildExpressionFromContext st1 ctx
  | none => (st, none)

/-- `SemanticAnalyzer::is_operator`. -/
def isOperatorWord (word : String) : Bool :=
  ["+", "-", "*", "/", "=", "<", ">", "!", "&", "|", ",", ":", "~",
   "<=", ">=", "==", "!="].contains word

/-- `SemanticAnalyzer::is_keyword`. -/
def isKeywordWord (word : String) : Bool :=
  ["si", "sino", "mientras", "repetir", "proceso", "robot", "variables",
   "numero", "booleano", "comenzar", "fin", "programa", "procesos",
   "areas", "robots", "V", "F", "HayFlorEnLaEsquina"].contains word

/-- `SemanticAnalyzer::is_number` (`word.parse::<i32>().is_ok()`). -/
def isNumberWord (word : String) : Bool :=
  (rustParseI32 word).isSome

/-- `SemanticAnalyzer::is_boolean`. -/
def isBooleanWord (word : String) : Bool :=
  ["true", "false", "verdadero", "falso", "v", "f"].contains (strToLower word)

/-- `SemanticAnalyzer::calculate_area_bounds`. -/
def calculateAreaBounds (dimensions : List String) : AreaBounds :=
  if dimensions.length != 4 then ⟨0, 0, 99, 99⟩
  else
    ⟨(rustParseI32 (dimensions.getD 0 "")).getD 0,
     (rustParseI32 (dimensions.getD 1 "")).getD 0,
     (rustParseI32 (dimensions.getD 2 "")).getD 99,
     (rustParseI32 (dimensions.getD 3 "")).getD 99⟩

/-- `SemanticAnalyzer::compile_expression_value`. -/
def compileExpressionValue (value : String) : ExpressionValue :=
  match rustParseI32 value with
  | some num => .Number num
  | none =>
    if isBooleanWord value then
      .Boolean (["true", "verdadero", "v"].contains (strToLower value))
    else
      .Variable value

mutual

/-- `SemanticAnalyzer::compile_instructions` (the `Value`-followed-by
patterns are compiled as a unit); fuel-indexed. -/
def compileInstructions : Nat → List ASTNode → List ExecutableInstruction
  | 0, _ => []
  | fuel + 1, statements =>
    match statements with
    | .Value value :: .Assignment _ operator assignValue :: rest =>
      .Assignment (some value) operator (compileExpressionValue assignValue) 0 ::
        compileInstructions fuel rest
    | .Value value :: .ProcessCall _ parameters :: rest =>
      .ProcessCall value parameters 0 :: compileInstructions fuel rest
    | stmt :: rest => compileInstruction fuel stmt :: compileInstructions fuel rest
    | [] => []

/-- `SemanticAnalyzer::compile_instruction`; fuel-indexed. -/
def compileInstruction : Nat → ASTNode → ExecutableInstruction
  | 0, stmt => .Unknown stmt
  | fuel + 1, stmt =>
    match stmt with
    | .ElementalInstruction instruction parameters => .Elemental instruction parameters 0
    | .ProcessCall name parameters => .ProcessCall name parameters 0
    | .IfStatement condition consequent alternate =>
      .If condition (compileInstructions fuel consequent)
        (match alternate with
         | some alt => compileInstructions fuel alt
         | none => []) 0
    | .WhileStatement condition body => .While condition (compileInstructions fuel body) 0
    | .RepeatStatement count body => .Repeat count (compileInstructions fuel body) 0
    | .Assignment target operator value =>
      .Assignment target operator (compileExpressionValue value) 0
    | .Value value => .Expression (compileExpressionValue value) 0
    | other => .Unknown other

end

/-- `SemanticAnalyzer::visit_value_statement` (also
`visit_value_as_expression`, which delegates to it verbatim). -/
def visitValueStatement (st : AnalyzerSt) (value : String) : AnalyzerSt :=
  match lookupVariable st value with
  | some symbol =>
    let st1 :=
      if !symbol.initialized && !symbol.isConstant then
        pushErr st ("Variable '" ++ value ++ "' no inicializada")
      else st
    if st1.expressionContext.isSome then addToExpression st1 (.Variable value)
    else st1
  | none =>
    if (lookupProcess st value).isSome then
      pushErr st ("Llamada a proceso '" ++ value ++ "' sin parámetros")
    else if isNumberWord value then
      match rustParseI32 value with
      | some num =>
        if st.expressionContext.isSome then addToExpression st (.Number num) else st
      | none => st
    else if isBooleanWord value then
      let boolVal := ["true", "verdadero", "v"].contains (strToLower value)
      if st.expressionContext.isSome then addToExpression st (.Boolean boolVal) else st
    else
      pushErr st ("Identificador '" ++ value ++ "' no declarado")

/-- `SemanticAnalyzer::visit_assignment_with_target`.  All lookups read
the state before any error push (errors do not change the scopes); the
closing `symbol.initialized = true` writes through the mutable reference,
i.e. updates the innermost binding of `target`, and only when the target
was found. -/
def visitAssignmentWithTarget (st : AnalyzerSt) (target operator value : String) :
    AnalyzerSt :=
  let targetSymbol := lookupVariable st target
  let st1 :=
    if targetSymbol.isNone then pushErr st ("Variable '" ++ target ++ "' no declarada")
    else st
  let st2 :=
    if isNumberWord value then
      match rustParseI32 value with
      | some _ =>
        match targetSymbol with
        | some symbol =>
          if symbol.varType != "numero" then
            pushErr st1 ("Tipo incompatible: no se puede asignar número a variable de tipo '"
              ++ symbol.varType ++ "'")
          else st1
        | none => st1
      | none => st1
    else if isBooleanWord value then
      match targetSymbol with
      | some symbol =>
        if symbol.varType != "booleano" && symbol.varType != "bool" then
          pushErr st1 ("Tipo incompatible: no se puede asignar booleano a variable de tipo '"
            ++ symbol.varType ++ "'")
        else st1
      | none => st1
    else
      match lookupVariable st value with
      | some valueSym =>
        match targetSymbol with
        | some targetSym =>
          let st3 :=
            if targetSym.varType != valueSym.varType then
              pushErr st1 ("Tipo incompatible: no se puede asignar " ++ value
                ++ " (tipo: " ++ valueSym.varType ++ ") a " ++ target
                ++ " (tipo: " ++ targetSym.varType ++ ")")
            else st1
          if !valueSym.initialized && !valueSym.isConstant then
            pushErr st3 ("Variable '" ++ value ++ "' no inicializada")
          else st3
        | none => st1
      | none => pushErr st1 ("Variable '" ++ value ++ "' no declarada")
  if targetSymbol.isSome then
    { st2 with scopeStack := setInitializedIn st2.scopeStack target }
  else st2

/-- `SemanticAnalyzer::visit_variable_declaration`. -/
def visitVariableDeclaration (st : AnalyzerSt) (name varType : String) : AnalyzerSt :=
  declareVariable st name varType st.currentScope

/-- `SemanticAnalyzer::visit_assignment` (its `target` parameter is unused
in the source's body). -/
def visitAssignment (st : AnalyzerSt) (target : Option String)
    (operator value : String) : AnalyzerSt :=
  let st1 :=
    if operator != ":=" then
      pushErr st ("Operador de asignación no válido: '" ++ operator ++ "'")
    else st
  if isNumberWord value then st1
  else if isBooleanWord value then st1
  else
    match lookupVariable st1 value with
    | some symbol =>
      if !symbol.initialized && !symbol.isConstant then
        pushErr st1 ("Variable '" ++ value ++ "' no inicializada")
      else st1
    | none => pushErr st1 ("Identificador '" ++ value ++ "' no declarado")

/-- `self.process_calls[call_index].is_valid = true` for
`call_index = len - 1`. -/
def setLastCallValid : List ProcessCallInfo → List ProcessCallInfo
  | [] => []
  | [c] => [{ c with isValid := true }]
  | c :: rest => c :: setLastCallValid rest

/-- `SemanticAnalyzer::visit_process_call`. -/
def visitProcessCall (st : AnalyzerSt) (name : String) (parameters : List String) :
    AnalyzerSt :=
  let st1 := { st with processCalls := st.processCalls ++ [⟨name, parameters, 0, false⟩] }
  if (lookupProcess st1 name).isNone then
    pushErr st1 ("Proceso '" ++ name ++ "' no declarado")
  else
    { st1 with processCalls := setLastCallValid st1.processCalls }

/-- The `valid_instructions` list of `visit_elemental_instruction`. -/
def validInstructions : List String :=
  ["Iniciar", "derecha", "mover", "tomarFlor", "tomarPapel",
   "depositarFlor", "depositarPapel", "PosAv", "PosCa",
   "HayFlorEnLaBolsa", "HayPapelEnLaBolsa", "HayFlorEnLaEsquina",
   "HayPapelEnLaEsquina", "Pos", "Informar", "AsignarArea",
   "Random", "BloquearEsquina", "LiberarEsquina",
   "EnviarMensaje", "RecibirMensaje"]

/-- The `for param in parameters` check loop of
`visit_elemental_instruction`. -/
def checkInstructionParams : AnalyzerSt → List String → AnalyzerSt
  | st, [] => st
  | st, param :: rest =>
    let st1 :=
      if !isNumberWord param && !isBooleanWord param then
        match lookupVariable st param with
        | some symbol =>
          if !symbol.initialized && !symbol.isConstant then
            pushErr st ("Variable '" ++ param ++ "' no inicializada en parámetro de instrucción")
          else st
        | none => pushErr st ("Parámetro no válido: '" ++ param ++ "'")
      else st
    checkInstructionParams st1 rest

/-- `SemanticAnalyzer::visit_elemental_instruction`. -/
def visitElementalInstruction (st : AnalyzerSt) (instruction : String)
    (parameters : List String) : AnalyzerSt :=
  let st1 :=
    if !(validInstructions.contains instruction) then
      pushErr st ("Instrucción elemental no reconocida: '" ++ instruction ++ "'")
    else st
  let st2 :=
    if instruction == "EnviarMensaje" || instruction == "RecibirMensaje" then
      analyzeMessageCommunication st1 instruction parameters
    else st1
  checkInstructionParams st2 parameters

/-- The dimension check loop of `visit_area_definition`. -/
def checkDimensions : AnalyzerSt → String → List String → AnalyzerSt
  | st, _, [] => st
  | st, name, dim :: rest =>
    let st1 :=
      if !isNumberWord dim && !(lookupVariable st dim).isSome then
        pushErr st ("Dimensión inválida en área '" ++ name ++ "': " ++ dim)
      else st
    checkDimensions st1 name rest

/-- `SemanticAnalyzer::visit_area_definition`. -/
def visitAreaDefinition (st : AnalyzerSt) (name areaType : String)
    (dimensions : List String) : AnalyzerSt :=
  let st1 :=
    if !(["AreaC", "AreaPC", "AreaP"].contains areaType) then
      pushErr st ("Tipo de área no reconocido: '" ++ areaType ++ "'")
    else st
  let st2 :=
    if dimensions.length != 4 then
      pushErr st1 ("El área '" ++ name ++ "' debe tener exactamente 4 dimensiones")
    else st1
  checkDimensions st2 name dimensions

/-- `SemanticAnalyzer::verify_operand_in_condition`. -/
def verifyOperandInCondition (st : AnalyzerSt) (operand operator : String) :
    AnalyzerSt :=
  if isNumberWord operand then st
  else if isBooleanWord operand then st
  else
    match lookupVariable st operand with
    | some symbol =>
      let st1 :=
        if !symbol.initialized && !symbol.isConstant then
          pushErr st ("Variable '" ++ operand ++ "' no inicializada en condición")
        else st
      if operator == "<" || operator == ">" || operator == "<=" || operator == ">=" then
        if symbol.varType != "numero" then
          pushErr st1 ("Operador '" ++ operator
            ++ "' requiere operandos numéricos, se obtuvo: " ++ symbol.varType)
        else st1
      else if operator == "&" || operator == "|" then
        if symbol.varType != "booleano" && symbol.varType != "bool" then
          pushErr st1 ("Operador '" ++ operator
            ++ "' requiere operandos booleanos, se obtuvo: " ++ symbol.varType)
        else st1
      else st1
    | none =>
      pushErr st ("Identificador '" ++ operand ++ "' no declarado en condición")

/-- `str::split_whitespace` worker over characters. -/
def splitWsAux : List Char → List Char → List (List Char)
  | acc, [] => if acc.isEmpty then [] else [acc.reverse]
  | acc, c :: rest =>
    if c.isWhitespace then
      if acc.isEmpty then splitWsAux [] rest
      else acc.reverse :: splitWsAux [] rest
    else splitWsAux (c :: acc) rest

/-- `expr.split_whitespace().collect::<Vec<&str>>()`. -/
def splitWhitespaceStr (s : String) : List String :=
  (splitWsAux [] s.data).map List.asString

/-- The index loop of `visit_condition`: an operator token not at either
end checks both neighbours and advances by 3 (`i += 2` then `i += 1`);
fuel-indexed with one unit per iteration. -/
def visitConditionLoop : Nat → AnalyzerSt → List String → Nat → AnalyzerSt
  | 0, st, _, _ => st
  | fuel + 1, st, tokens, i =>
    if i < tokens.length then
      let token := tokens.getD i ""
      if isOperatorWord token then
        if i == 0 || i == tokens.length - 1 then
          visitConditionLoop fuel
            (pushErr st ("Operador '" ++ token ++ "' en posición inválida en condición"))
            tokens (i + 1)
        else
          let left := tokens.getD (i - 1) ""
          let right := tokens.getD (i + 1) ""
          let st1 := verifyOperandInCondition st left token
          let st2 := verifyOperandInCondition st1 right token
          visitConditionLoop fuel st2 tokens (i + 3)
      else if !isKeywordWord token then
        visitConditionLoop fuel (verifyOperandInCondition st token "") tokens (i + 1)
      else
        visitConditionLoop fuel st tokens (i + 1)
    else st

/-- `SemanticAnalyzer::visit_condition`. -/
def visitCondition (st : AnalyzerSt) (condition : Condition) : AnalyzerSt :=
  let tokens := splitWhitespaceStr condition.expression
  visitConditionLoop (tokens.length + 1) st tokens 0

mutual

/-- `SemanticAnalyzer::visit_block`: the statement loop with its
`Value`-followed-by lookahead; fuel-indexed. -/
def visitBlock : Nat → AnalyzerSt → List ASTNode → AnalyzerSt
  | 0, st, _ => st
  | fuel + 1, st, statements =>
    match statements with
    | [] => st
    | .Value value :: rest =>
      match rest with
      | .Assignment _ operator assignValue :: rest2 =>
        visitBlock fuel (visitAssignmentWithTarget st value operator assignValue) rest2
      | .Operator operator :: rest2 =>
        let st1 := startExpressionContext st false none
        let st2 := visitValueStatement st1 value
        let st3 := addOperatorToExpression st2 operator
        let scanned := exprScan fuel st3 rest2
        let ended := endExpressionContext scanned.1
        match ended.2 with
        | some _ =>
          match scanned.2 with
          | .Assignment _ _ _ :: rest3 => visitBlock fuel ended.1 rest3
          | _ => visitBlock fuel ended.1 scanned.2
        | none => visitBlock fuel ended.1 scanned.2
      | .ProcessCall _ parameters :: rest2 =>
        if (lookupProcess st value).isSome then
          visitBlock fuel (visitProcessCall st value parameters) rest2
        else
          visitBlock fuel (visitValueStatement st value) rest
      | _ =>
        visitBlock fuel (visitValueStatement st value) rest
    | stmt :: rest => visitBlock fuel (visitStatement fuel st stmt) rest

/-- The inner `while j < statements.len()` scan of `visit_block`'s
expression case: consume `Value`/`Operator` nodes, return the rest. -/
def exprScan : Nat → AnalyzerSt → List ASTNode → AnalyzerSt × List ASTNode
  | 0, st, l => (st, l)
  | fuel + 1, st, l =>
    match l with
    | .Value v :: rest => exprScan fuel (visitValueStatement st v) rest
    | .Operator op :: rest => exprScan fuel (addOperatorToExpression st op) rest
    | _ => (st, l)

/-- `SemanticAnalyzer::visit_statement`; fuel-indexed. -/
def visitStatement : Nat → AnalyzerSt → ASTNode → AnalyzerSt
  | 0, st, _ => st
  | fuel + 1, st, node =>
    match node with
    | .VariableDeclaration name variableType => visitVariableDeclaration st name variableType
    | .IfStatement condition consequent alternate =>
      visitIfStatement fuel st condition consequent alternate
    | .WhileStatement condition body => visitWhileStatement fuel st condition body
    | .RepeatStatement count body => visitRepeatStatement fuel st count body
    | .Assignment target operator value => visitAssignment st target operator value
    | .ProcessCall name parameters => visitProcessCall st name parameters
    | .ElementalInstruction instruction parameters =>
      visitElementalInstruction st instruction parameters
    | .AreaDefinition name areaType dimensions =>
      visitAreaDefinition st name areaType dimensions
    | .Value value => visitValueStatement st value
    | .Operator _ => pushErr st "Operador fuera de contexto de expresión"
    | _ => pushErr st "Tipo de statement no reconocido"

/-- `SemanticAnalyzer::visit_if_statement`; fuel-indexed. -/
def visitIfStatement : Nat → AnalyzerSt → Condition → List ASTNode →
    Option (List ASTNode) → AnalyzerSt
  | 0, st, _, _, _ => st
  | fuel + 1, st, condition, consequent, alternate =>
    let st1 := visitCondition st condition
    let st2 := exitScope (visitBlock fuel (enterScope st1 "if") consequent)
    match alternate with
    | some alt => exitScope (visitBlock fuel (enterScope st2 "else") alt)
    | none => st2

/-- `SemanticAnalyzer::visit_while_statement`; fuel-indexed. -/
def visitWhileStatement : Nat → AnalyzerSt → Condition → List ASTNode → AnalyzerSt
  | 0, st, _, _ => st
  | fuel + 1, st, condition, body =>
    let st1 := visitCondition st condition
    exitScope (visitBlock fuel (enterScope st1 "while") body)

/-- `SemanticAnalyzer::visit_repeat_statement`; fuel-indexed. -/
def visitRepeatStatement : Nat → AnalyzerSt → String → List ASTNode → AnalyzerSt
  | 0, st, _, _ => st
  | fuel + 1, st, count, body =>
    let st1 :=
      if isNumberWord count then
        match rustParseI32 count with
        | some countVal =>
          if countVal ≤ 0 then
            pushErr st "El contador de repetición debe ser mayor a 0"
          else st
        | none => st
      else
        match lookupVariable st count with
        | some symbol =>
          let e1 :=
            if symbol.varType != "numero" then
              pushErr st ("El contador de repetición debe ser numérico, se obtuvo: "
                ++ symbol.varType)
            else st
          if !symbol.initialized then
            pushErr e1 ("Variable '" ++ count ++ "' no inicializada en contador de repetición")
          else e1
        | none => pushErr st ("Contador de repetición no válido: '" ++ count ++ "'")
    exitScope (visitBlock fuel (enterScope st1 "repeat") body)

end

/-- `SemanticAnalyzer::visit_variables_section`. -/
def visitVariablesSection : AnalyzerSt → List ASTNode → AnalyzerSt
  | st, [] => st
  | st, decl :: rest =>
    match decl with
    | .VariableDeclaration name variableType =>
      let st1 := declareVariable st name variableType "global"
      let vi : VariableInfo := ⟨name, variableType, none⟩
      let ec := { st1.executableCode with
                    vars := insertAssoc st1.executableCode.vars name vi }
      let st2 := { st1 with executableCode := ec }
      visitVariablesSection st2 rest
    | _ => visitVariablesSection st rest

/-- `SemanticAnalyzer::visit_areas_section`. -/
def visitAreasSection : AnalyzerSt → List ASTNode → AnalyzerSt
  | st, [] => st
  | st, area :: rest =>
    match area with
    | .AreaDefinition name areaType dimensions =>
      let st1 := declareVariable st name "area" "global"
      let ai : AreaInfo := ⟨name, areaType, dimensions, calculateAreaBounds dimensions⟩
      let ec := { st1.executableCode with areas := st1.executableCode.areas ++ [ai] }
      let st2 := { st1 with executableCode := ec }
      visitAreasSection st2 rest
    | _ => visitAreasSection st rest

/-- `SemanticAnalyzer::visit_proceso`: scope entry, parameter
declarations, body visit, scope exit. -/
def visitProceso (fuel : Nat) (st : AnalyzerSt) (name : String)
    (parameters : List Parameter) (body : List ASTNode) : AnalyzerSt :=
  let st1 := enterScope st ("proceso:" ++ name)
  let st2 := parameters.foldl
    (fun acc p => declareVariable acc p.name p.paramType ("proceso:" ++ name)) st1
  exitScope (visitBlock fuel st2 body)

/-- `SemanticAnalyzer::visit_procesos_section`. -/
def visitProcesosSection (fuel : Nat) : AnalyzerSt → List ASTNode → AnalyzerSt
  | st, [] => st
  | st, proceso :: rest =>
    match proceso with
    | .Proceso name parameters vars body =>
      let st1 := declareProcess st name
      let varNodes :=
        match vars with
        | some (.VariablesSection declarations) => declarations
        | _ => []
      let pi : ProcessInfo := ⟨name, parameters, varNodes, body.length, "proceso:" ++ name⟩
      let st2 := { st1 with processesInfo := st1.processesInfo ++ [pi] }
      let pe : ProcessExecutable := ⟨name, parameters, compileInstructions fuel body⟩
      let ec := { st2.executableCode with procesos := st2.executableCode.procesos ++ [pe] }
      let st3 := { st2 with executableCode := ec }
      let st4 := visitProceso fuel st3 name parameters body
      visitProcesosSection fuel st4 rest
    | _ => visitProcesosSection fuel st rest

/-- The robot-local `variables` declaration loop of
`visit_robots_section`. -/
def declareRobotVars (robotName : String) : AnalyzerSt → List ASTNode → AnalyzerSt
  | st, [] => st
  | st, v :: rest =>
    match v with
    | .VariableDeclaration name variableType =>
      declareRobotVars robotName
        (declareVariable st name variableType ("robot:" ++ robotName)) rest
    | _ => declareRobotVars robotName st rest

/-- `SemanticAnalyzer::visit_robots_section`. -/
def visitRobotsSection (fuel : Nat) : AnalyzerSt → List ASTNode → AnalyzerSt
  | st, [] => st
  | st, robot :: rest =>
    match robot with
    | .Robot name vars body =>
      let st1 := declareVariable st name "robot" "global"
      let re : RobotExecutable :=
        ⟨name, compileInstructions fuel body, (0, 0), "este", (0, 0), false⟩
      let ec := { st1.executableCode with robots := st1.executableCode.robots ++ [re] }
      let st2 := { st1 with executableCode := ec }
      let st3 := enterScope st2 ("robot:" ++ name)
      let st4 :=
        match vars with
        | some vs => declareRobotVars name st3 vs
        | none => st3
      let st5 := visitBlock fuel st4 body
      visitRobotsSection fuel (exitScope st5) rest
    | _ => visitRobotsSection fuel st rest

/-- `SemanticAnalyzer::visit_main_block`. -/
def visitMainBlock (fuel : Nat) (st : AnalyzerSt) (body : List ASTNode) : AnalyzerSt :=
  let st1 := enterScope st "main"
  let ec := { st1.executableCode with main := compileInstructions fuel body }
  let st2 := { st1 with executableCode := ec }
  exitScope (visitBlock fuel st2 body)

/-- The `for section in body` dispatch of `visit_program`. -/
def visitSections (fuel : Nat) : AnalyzerSt → List ASTNode → AnalyzerSt
  | st, [] => st
  | st, sec :: rest =>
    match sec with
    | .VariablesSection declarations =>
      visitSections fuel (visitVariablesSection st declarations) rest
    | .ProcesosSection procesos =>
      visitSections fuel (visitProcesosSection fuel st procesos) rest
    | .RobotsSection robots =>
      visitSections fuel (visitRobotsSection fuel st robots) rest
    | .MainBlock body => visitSections fuel (visitMainBlock fuel st body) rest
    | .AreasSection areas => visitSections fuel (visitAreasSection st areas) rest
    | _ => visitSections fuel (pushErr st "Sección no reconocida en programa") rest

/-- `SemanticAnalyzer::visit_program`. -/
def visitProgram (fuel : Nat) (st : AnalyzerSt) (node : ASTNode) : AnalyzerSt :=
  match node with
  | .Program name body =>
    let st1 := enterScope st "global"
    let ec := { st1.executableCode with programa := name }
    let st2 := { st1 with executableCode := ec }
    exitScope (visitSections fuel st2 body)
  | _ => st

/-- Negation of the `matches!(instr, ExecutableInstruction::ProcessCall ..)`
test of `get_total_instructions`. -/
def isProcessCallInstr : ExecutableInstruction → Bool
  | .ProcessCall _ _ _ => true
  | _ => false

/-- `SemanticAnalyzer::get_total_instructions`. -/
def getTotalInstructions (st : AnalyzerSt) : Nat :=
  (st.processesInfo.map (fun p => p.bodyStatements)).sum
    + (st.executableCode.robots.map
        (fun r => (r.instructions.filter (fun i => !isProcessCallInstr i)).length)).sum
    + st.executableCode.main.length

/-- `SemanticAnalyzer::get_analysis_summary`
(`get_formatted_symbol_table` returns `symbol_table` unchanged). -/
def getAnalysisSummary (st : AnalyzerSt) : AnalysisSummary :=
  ⟨getTotalInstructions st,
   st.processesInfo.length,
   st.processCalls.length,
   (st.processCalls.filter (fun c => c.isValid)).length,
   st.errors.length,
   st.symbolTable.length,
   st.executableCode.robots.length,
   st.executableCode.areas.length,
   calculateTotalConexiones st⟩

/-- The empty `ExecutableCode` built by `SemanticAnalyzer::new`/`analyze`. -/
def emptyExecutableCode : ExecutableCode := ⟨"", [], [], [], [], []⟩

/-- The empty `CommunicationStats` built by
`SemanticAnalyzer::new`/`analyze`. -/
def emptyCommStats : CommunicationStats := ⟨[], [], [], []⟩

/-- The analyzer state after `SemanticAnalyzer::new` (identical to the
state after the reset prologue of `analyze`): one empty scope,
`current_scope = "global"`. -/
def newAnalyzer : AnalyzerSt :=
  ⟨[], [[]], [], "global", [], [], emptyExecutableCode, emptyCommStats, none, []⟩

mutual

/-- Structural size of an `ASTNode`, the fuel measure for the visitor and
compiler recursions (each of which descends into node bodies). -/
def astSize : ASTNode → Nat
  | .Program _ body => 1 + astSizeList body
  | .ProcesosSection procesos => 1 + astSizeList procesos
  | .Proceso _ _ vars body => 1 + astSizeOpt vars + astSizeList body
  | .Parameter _ _ _ => 1
  | .AreasSection areas => 1 + astSizeList areas
  | .AreaDefinition _ _ _ => 1
  | .RobotsSection robots => 1 + astSizeList robots
  | .Robot _ vars body => 1 + astSizeOptList vars + astSizeList body
  | .VariablesSection declarations => 1 + astSizeList declarations
  | .VariableDeclaration _ _ => 1
  | .MainBlock body => 1 + astSizeList body
  | .IfStatement _ consequent alternate =>
    1 + astSizeList consequent + astSizeOptList alternate
  | .WhileStatement _ body => 1 + astSizeList body
  | .RepeatStatement _ body => 1 + astSizeList body
  | .Assignment _ _ _ => 1
  | .ElementalInstruction _ _ => 1
  | .ProcessCall _ _ => 1
  | .Condition _ => 1
  | .Operator _ => 1
  | .Value _ => 1

/-- Size of a node list. -/
def astSizeList : List ASTNode → Nat
  | [] => 0
  | n :: rest => astSize n + astSizeList rest

/-- Size of an optional node. -/
def astSizeOpt : Option ASTNode → Nat
  | none => 0
  | some n => astSize n

/-- Size of an optional node list. -/
def astSizeOptList : Option (List ASTNode) → Nat
  | none => 0
  | some l => astSizeList l

end

/-- Fuel for one `analyze` run: enough for every fuel-indexed recursion on
the given AST. -/
def analyzerFuel (node : ASTNode) : Nat := astSize node + 1000

/-- `SemanticAnalyzer::analyze`: reset (= `newAnalyzer`; `current_scope`
is not reset, but it is `"global"` on a fresh analyzer and immediately
overwritten by `visit_program`), visit, then assemble the result;
`success` is `errors.is_empty()`. -/
def analyze (node : ASTNode) : SemanticAnalysisResult :=
  let st := visitProgram (analyzerFuel node) newAnalyzer node
  ⟨st.symbolTable, st.processesInfo, st.processCalls, st.executableCode,
   st.errors, st.errors.isEmpty, getAnalysisSummary st, getCommunicationStats st⟩

/-- Arrow-freedom of a character list: `true` iff it contains the
two-character sequence `"->"` (the separator `split("->")` cuts on). -/
def arrowIn : List Char → Bool
  | [] => false
  | [_] => false
  | c :: d :: rest => (c == '-' && d == '>') || arrowIn (d :: rest)

/-- The two-robot communication scenario of the spec's §8 pairing
property: robot `A` sends to `B`, robot `B` receives from `A`. -/
def astC7 : ASTNode :=
  .Program "Comunicacion"
    [.RobotsSection
      [.Robot "A" none [.ElementalInstruction "EnviarMensaje" ["B"]],
       .Robot "B" none [.ElementalInstruction "RecibirMensaje" ["A"]]]]

lemma boolLit_not_in_keywordMap (s : String) (h : isBooleanLiteralStr s = true) :
    keywordMapGet s = none := by
  unfold keywordMapGet
  have h1 : basicKeywords.contains s = false := by
    by_contra hc
    simp only [Bool.not_eq_false, basicKeywords, List.contains_cons,
      List.contains_nil, Bool.or_eq_true, beq_iff_eq] at hc
    rcases hc with rfl | rfl | rfl | rfl | rfl | rfl | rfl | rfl | rfl | hf
    all_goals first
      | exact absurd h (by decide)
      | simp at hf
  have h2 : controlSentences.contains s = false := by
    by_contra hc
    simp only [Bool.not_eq_false, controlSentences, List.contains_cons,
      List.contains_nil, Bool.or_eq_true, beq_iff_eq] at hc
    rcases hc with rfl | rfl | rfl | rfl | hf
    all_goals first
      | exact absurd h (by decide)
      | simp at hf
  have h3 : elementalInstructions.contains s = false := by
    by_contra hc
    simp only [Bool.not_eq_false, elementalInstructions, List.contains_cons,
      List.contains_nil, Bool.or_eq_true, beq_iff_eq] at hc
    rcases hc with rfl | rfl | rfl | rfl | rfl | rfl | rfl | rfl | rfl | rfl |
      rfl | rfl | rfl | rfl | rfl | rfl | rfl | rfl | rfl | rfl | rfl | rfl |
      rfl | rfl | rfl | hf
    all_goals first
      | exact absurd h (by decide)
      | simp at hf
  have h1' : s ∉ basicKeywords := by simpa using h1
  have h2' : s ∉ controlSentences := by simpa using h2
  have h3' : s ∉ elementalInstructions := by simpa using h3
  simp [h1', h2', h3']

/-- Claim C5, as stated, is false: the six boolean spellings do not all
receive the same token kind.  The exact spellings `V` and `F` are found in
`types_defined` and classified `BoolValue`, while `true` falls through to
the boolean-literal check and is classified `Bool`. -/
theorem C5_boolean_spellings_counterexample :
    determineIdentifierType "V" = TokenType.BoolValue ∧
    determineIdentifierType "true" = TokenType.Bool ∧
    determineIdentifierType "v" = TokenType.Bool ∧
    TokenType.BoolValue ≠ TokenType.Bool := by
  refine ⟨by decide, by decide, by decide, by decide⟩

/-- Claim C5, amended: every word whose lower-casing is one of the six
boolean spellings is classified as a boolean literal, but not uniformly:
the exact spellings `V` and `F` get kind `BoolValue` (via `types_defined`)
and every other spelling or casing gets kind `Bool`. -/
theorem C5_boolean_spellings :
    ∀ s : String, isBooleanLiteralStr s = true →
      determineIdentifierType s =
        (if s = "V" ∨ s = "F" then TokenType.BoolValue else TokenType.Bool) := by
  intro s h
  unfold determineIdentifierType
  rw [boolLit_not_in_keywordMap s h]
  by_cases hV : s = "V"
  · subst hV; decide
  · by_cases hF : s = "F"
    · subst hF; decide
    · have hn : s ≠ "numero" := by rintro rfl; exact absurd h (by decide)
      have hb : s ≠ "booleano" := by rintro rfl; exact absurd h (by decide)
      simp [typesDefinedGet, hV, hF, hn, hb, h]

/-- Witness for `C5_boolean_spellings` at the concrete spelling
`Verdadero`. -/
theorem C5_boolean_spellings_witness :
    isBooleanLiteralStr "Verdadero" = true ∧
    determineIdentifierType "Verdadero" =
      (if "Verdadero" = "V" ∨ "Verdadero" = "F" then TokenType.BoolValue
       else TokenType.Bool) :=
  ⟨by decide, C5_boolean_spellings "Verdadero" (by decide)⟩

/-- Claim C2, as stated, is false: tokenizing `(x)` succeeds and yields
separate `OpenedParenthesis`/`ClosedParenthesis` tokens with no token of
kind `Parameter` at all. -/
theorem C2_parameter_token_counterexample :
    tokenizeStr "(x)" =
      .ok [⟨.OpenedParenthesis, "(", 1, 1⟩, ⟨.Identifier, "x", 1, 2⟩,
           ⟨.ClosedParenthesis, ")", 1, 3⟩, ⟨.EndFile, "", 1, 4⟩] ∧
    ([Token.mk .OpenedParenthesis "(" 1 1, ⟨.Identifier, "x", 1, 2⟩,
      ⟨.ClosedParenthesis, ")", 1, 3⟩, ⟨.EndFile, "", 1, 4⟩].all
        (fun t => !(t.tokenType == .Parameter))) = true := by
  refine ⟨by decide, by decide⟩

/-- Claim C4, as stated, is false on lines with no leading whitespace: in
`"\ta\nb"` the second line has indentation 0 but starts with a letter, so
`handle_indentation` is never invoked for it and the pending `Dedent` is
emitted only at end of input, after the `b` token. -/
theorem C4_zero_indent_counterexample :
    tokenizeStr "\ta\nb" =
      .ok [⟨.Indent, "", 1, 1⟩, ⟨.Identifier, "a", 1, 2⟩,
           ⟨.Identifier, "b", 2, 1⟩, ⟨.Dedent, "", 2, 1⟩, ⟨.EndFile, "", 2, 2⟩] := by
  decide

lemma countTok_append (tt : TokenType) (a b : List Token) :
    countTok tt (a ++ b) = countTok tt a + countTok tt b := by
  simp [countTok, List.countP_append]

lemma countTok_replicate (tt : TokenType) (k : Nat) (t : Token) :
    countTok tt (List.replicate k t) = if t.tokenType == tt then k else 0 := by
  induction k with
  | zero => simp [countTok]
  | succ n ih =>
    rw [List.replicate_succ]
    by_cases h : t.tokenType == tt <;>
      simp_all [countTok, List.countP_cons, h]

lemma getLast?_cons_ne {α : Type} (a : α) (l : List α) (h : l ≠ []) :
    (a :: l).getLast? = l.getLast? := by
  cases l with
  | nil => exact absurd rfl h
  | cons b m => simp [List.getLast?_cons_cons]

lemma popDedents_spec (n : Nat) :
    ∀ (stack : List Nat) (k : Nat) (stack' : List Nat),
      popDedents n stack = .ok (k, stack') →
      stack'.length + k = stack.length ∧
      (stack.getLast? = some 0 → stack'.getLast? = some 0) := by
  intro stack
  induction stack with
  | nil =>
    intro k stack' h
    simp only [popDedents] at h
    injection h with h
    obtain ⟨rfl, rfl⟩ : k = 0 ∧ stack' = [] := by
      constructor <;> [exact (congrArg Prod.fst h).symm; exact (congrArg Prod.snd h).symm]
    simp
  | cons s rest ih =>
    intro k stack' h
    simp only [popDedents] at h
    by_cases h1 : s ≤ n
    · rw [if_pos h1] at h
      by_cases h2 : s < n
      · rw [if_pos h2] at h; exact absurd h (by simp)
      · rw [if_neg h2] at h
        injection h with h
        obtain ⟨rfl, rfl⟩ : k = 0 ∧ stack' = s :: rest := by
          constructor <;> [exact (congrArg Prod.fst h).symm; exact (congrArg Prod.snd h).symm]
        exact ⟨by simp, fun hl => hl⟩
    · rw [if_neg h1] at h
      cases hr : popDedents n rest with
      | error e => rw [hr] at h; exact absurd h (by simp)
      | ok r =>
        rw [hr] at h
        injection h with h
        obtain ⟨hk, rfl⟩ : k = r.1 + 1 ∧ stack' = r.2 := by
          constructor <;> [exact (congrArg Prod.fst h).symm; exact (congrArg Prod.snd h).symm]
        obtain ⟨hlen, hlast⟩ := ih r.1 r.2 (by rw [hr])
        subst hk
        refine ⟨by simp only [List.length_cons]; omega, fun hl => ?_⟩
        rcases List.eq_nil_or_concat rest with rfl | ⟨_, _, rfl⟩
        · have hs0 : s = 0 := by simpa using hl
          subst hs0
          exact absurd (Nat.zero_le n) h1
        · exact hlast (by rwa [getLast?_cons_ne] at hl; simp)

lemma keywordMapGet_cases (s : String) :
    keywordMapGet s = none ∨ keywordMapGet s = some .Keyword ∨
    keywordMapGet s = some .ControlSentence ∨
    keywordMapGet s = some .ElementalInstruction := by
  unfold keywordMapGet; split_ifs <;> simp

lemma typesDefinedGet_cases (s : String) :
    typesDefinedGet s = none ∨ typesDefinedGet s = some .Num ∨
    typesDefinedGet s = some .Bool ∨ typesDefinedGet s = some .BoolValue := by
  unfold typesDefinedGet; split_ifs <;> simp

/-- The identifier classifier never produces a structural or `Parameter`
token kind. -/
lemma det_not_special (s : String) :
    determineIdentifierType s ≠ .Indent ∧ determineIdentifierType s ≠ .Dedent ∧
    determineIdentifierType s ≠ .EndFile ∧ determineIdentifierType s ≠ .Parameter := by
  have hc : determineIdentifierType s = .Keyword ∨
      determineIdentifierType s = .ControlSentence ∨
      determineIdentifierType s = .ElementalInstruction ∨
      determineIdentifierType s = .Num ∨ determineIdentifierType s = .Bool ∨
      determineIdentifierType s = .BoolValue ∨
      determineIdentifierType s = .Identifier := by
    unfold determineIdentifierType
    rcases keywordMapGet_cases s with h | h | h | h <;> rw [h]
    · rcases typesDefinedGet_cases s with h2 | h2 | h2 | h2 <;> rw [h2]
      · cases hb : isBooleanLiteralStr s <;> simp
      all_goals simp
    all_goals simp
  rcases hc with h | h | h | h | h | h | h <;> rw [h] <;>
    exact ⟨by decide, by decide, by decide, by decide⟩

lemma twoCharOpType_not_special (a b : Char) (tt : TokenType)
    (h : twoCharOpType a b = some tt) :
    tt ≠ .Indent ∧ tt ≠ .Dedent ∧ tt ≠ .EndFile ∧ tt ≠ .Parameter := by
  unfold twoCharOpType at h
  split_ifs at h <;> cases h <;>
    exact ⟨by decide, by decide, by decide, by decide⟩

set_option maxHeartbeats 2000000 in
lemma singleOpType_not_special (c : Char) (tt : TokenType)
    (h : singleOpType c = some tt) :
    tt ≠ .Indent ∧ tt ≠ .Dedent ∧ tt ≠ .EndFile ∧ tt ≠ .Parameter := by
  unfold singleOpType at h
  split_ifs at h
  all_goals cases h
  all_goals exact ⟨by decide, by decide, by decide, by decide⟩

/-- Preservation of `LexInv` by a state that appends one token of a
non-structural, non-`Parameter` kind and keeps the indent stack. -/
lemma LexInv_push {st st' : LexState} (t : Token)
    (h1 : t.tokenType ≠ .Indent) (h2 : t.tokenType ≠ .Dedent)
    (h3 : t.tokenType ≠ .EndFile) (h4 : t.tokenType ≠ .Parameter)
    (hinv : LexInv st)
    (htok : st'.tokens = st.tokens ++ [t]) (hstack : st'.indentStack = st.indentStack) :
    LexInv st' := by
  obtain ⟨hc, hl, hm⟩ := hinv
  refine ⟨?_, by rw [hstack]; exact hl, ?_⟩
  · rw [htok, hstack, countTok_append, countTok_append]
    have e1 : countTok .Indent [t] = 0 := by simp [countTok, h1]
    have e2 : countTok .Dedent [t] = 0 := by simp [countTok, h2]
    omega
  · rw [htok]
    intro u hu
    rcases List.mem_append.mp hu with h | h
    · exact hm u h
    · rw [List.mem_singleton.mp h]; exact ⟨h3, h4⟩

/-- Preservation of `LexInv` by a state that changes neither the tokens
nor the indent stack. -/
lemma LexInv_same {st st' : LexState}
    (htok : st'.tokens = st.tokens) (hstack : st'.indentStack = st.indentStack)
    (hinv : LexInv st) : LexInv st' := by
  obtain ⟨hc, hl, hm⟩ := hinv
  exact ⟨by rw [htok, hstack]; exact hc, by rw [hstack]; exact hl,
    by rw [htok]; exact hm⟩

lemma LexInv_handleIndentation {st st' : LexState}
    (h : handleIndentation st = .ok st') (hinv : LexInv st) : LexInv st' := by
  simp only [handleIndentation] at h
  split at h
  · injection h with h; exact LexInv_same (by rw [← h]) (by rw [← h]) hinv
  · split_ifs at h with hnl hne hgt hlt
    · injection h with h; exact LexInv_same (by rw [← h]) (by rw [← h]) hinv
    · -- indent token pushed, level pushed
      injection h with h
      obtain ⟨hc, hl, hm⟩ := hinv
      have hne' : st.indentStack ≠ [] := by
        intro hnil; rw [hnil] at hl; simp at hl
      refine ⟨?_, ?_, ?_⟩
      · rw [← h]
        simp only [pushTok, countTok_append, List.length_cons]
        have e1 : countTok .Indent [⟨.Indent, "", st.line, 1⟩] = 1 := by
          simp [countTok]
        have e2 : countTok .Dedent [⟨.Indent, "", st.line, 1⟩] = 0 := by
          simp [countTok]
        omega
      · rw [← h]
        simpa [pushTok, getLast?_cons_ne _ _ hne'] using hl
      · rw [← h]
        simp only [pushTok]
        intro u hu
        rcases List.mem_append.mp hu with hx | hx
        · exact hm u hx
        · rw [List.mem_singleton.mp hx]; exact ⟨by simp, by simp⟩
    · -- dedent tokens emitted via popDedents
      split at h
      · exact absurd h (by simp)
      · rename_i r2 hpop
        injection h with h
        obtain ⟨hc, hl, hm⟩ := hinv
        obtain ⟨hlen, hlast⟩ := popDedents_spec _ _ _ _ hpop
        refine ⟨?_, ?_, ?_⟩
        · rw [← h]
          simp only [countTok_append]
          have e1 : countTok .Indent (List.replicate r2.1 ⟨.Dedent, "", st.line, 1⟩) = 0 := by
            rw [countTok_replicate]; simp
          have e2 : countTok .Dedent (List.replicate r2.1 ⟨.Dedent, "", st.line, 1⟩) = r2.1 := by
            rw [countTok_replicate]; simp
          omega
        · rw [← h]; exact hlast hl
        · rw [← h]
          intro u hu
          rcases List.mem_append.mp hu with hx | hx
          · exact hm u hx
          · rw [List.eq_of_mem_replicate hx]; exact ⟨by simp, by simp⟩
    · injection h with h; exact LexInv_same (by rw [← h]) (by rw [← h]) hinv
    · injection h with h; exact LexInv_same (by rw [← h]) (by rw [← h]) hinv

lemma LexInv_handleOpen (st : LexState) (hinv : LexInv st) :
    LexInv (handleOpenParenthesis st) :=
  LexInv_push ⟨.OpenedParenthesis, "(", st.line, st.column⟩
    (by simp) (by simp) (by simp) (by simp) hinv
    (by simp [handleOpenParenthesis, pushTok]) (by simp [handleOpenParenthesis, pushTok])

lemma LexInv_handleClose {st st' : LexState}
    (h : handleCloseParenthesis st = .ok st') (hinv : LexInv st) : LexInv st' := by
  simp only [handleCloseParenthesis] at h
  split at h
  · exact Except.noConfusion h
  · split_ifs at h with hpc
    all_goals first
      | exact Except.noConfusion h
      | (injection h with h;
         exact LexInv_push ⟨.ClosedParenthesis, ")", st.line, st.column⟩
           (by simp) (by simp) (by simp) (by simp) hinv
           (by rw [← h]; simp [pushTok]) (by rw [← h]; simp [pushTok]))

lemma LexInv_readNumber (st : LexState) (hinv : LexInv st) :
    LexInv (readNumber st) :=
  LexInv_push ⟨.Num, ((st.chars.drop st.position).takeWhile Char.isDigit).asString,
      st.line, st.column⟩
    (by simp) (by simp) (by simp) (by simp) hinv
    (by simp [readNumber, pushTok]) (by simp [readNumber, pushTok])

lemma LexInv_readIdentifier (st : LexState) (hinv : LexInv st) :
    LexInv { readIdentifier st with atLineStart := false } := by
  have hd := det_not_special
    ((st.chars.drop st.position).takeWhile (fun c => c.isAlphanum || c = '_')).asString
  exact LexInv_push
    ⟨determineIdentifierType
        ((st.chars.drop st.position).takeWhile (fun c => c.isAlphanum || c = '_')).asString,
      ((st.chars.drop st.position).takeWhile (fun c => c.isAlphanum || c = '_')).asString,
      st.line, st.column⟩
    hd.1 hd.2.1 hd.2.2.1 hd.2.2.2 hinv
    (by simp [readIdentifier, pushTok]) (by simp [readIdentifier, pushTok])

lemma LexInv_readStringTok {st st' : LexState} {q : Char}
    (h : readStringTok st q = .ok st') (hinv : LexInv st) : LexInv st' := by
  simp only [readStringTok] at h
  split at h
  · exact Except.noConfusion h
  · exact Except.noConfusion h
  · rename_i r heq
    injection h with h
    exact LexInv_push ⟨.Str, r.1.asString, st.line, st.column⟩
      (by simp) (by simp) (by simp) (by simp) hinv
      (by rw [← h]; simp [pushTok]) (by rw [← h]; simp [pushTok])

lemma LexInv_readOperator {st st' : LexState}
    (h : readOperator st = .ok st') (hinv : LexInv st) : LexInv st' := by
  simp only [readOperator] at h
  split at h
  · exact Except.noConfusion h
  · rename_i c1 hc1
    split at h
    · rename_i c2 hc2
      split at h
      · rename_i tt heq
        injection h with h
        have hs := twoCharOpType_not_special c1 c2 tt heq
        exact LexInv_push ⟨tt, c1.toString ++ c2.toString, st.line, st.column⟩
          hs.1 hs.2.1 hs.2.2.1 hs.2.2.2 hinv
          (by rw [← h]; simp [pushTok]) (by rw [← h]; simp [pushTok])
      · split at h
        · rename_i tt heq
          injection h with h
          have hs := singleOpType_not_special c1 tt heq
          exact LexInv_push ⟨tt, c1.toString, st.line, st.column⟩
            hs.1 hs.2.1 hs.2.2.1 hs.2.2.2 hinv
            (by rw [← h]; simp [pushTok]) (by rw [← h]; simp [pushTok])
        · exact Except.noConfusion h
    · split at h
      · rename_i tt heq
        injection h with h
        have hs := singleOpType_not_special c1 tt heq
        exact LexInv_push ⟨tt, c1.toString, st.line, st.column⟩
          hs.1 hs.2.1 hs.2.2.1 hs.2.2.2 hinv
          (by rw [← h]; simp [pushTok]) (by rw [← h]; simp [pushTok])
      · exact Except.noConfusion h

/-- One successful loop iteration preserves the lexer invariant. -/
lemma LexInv_step {st st' : LexState}
    (h : tokenizeStep st = .next st') (hinv : LexInv st) : LexInv st' := by
  unfold tokenizeStep at h
  split at h
  · exact LexStep.noConfusion h
  · split_ifs at h
    all_goals (try split at h)
    all_goals first
      | exact LexStep.noConfusion h
      | (injection h with h; subst h; first
          | exact LexInv_handleOpen st hinv
          | exact LexInv_readNumber st hinv
          | exact LexInv_readIdentifier st hinv
          | exact LexInv_same (by simp [skipWhitespaceOnly]) (by simp [skipWhitespaceOnly]) hinv
          | exact LexInv_same (by rfl) (by rfl) hinv
          | exact LexInv_handleClose (by assumption) hinv
          | exact LexInv_handleIndentation (by assumption) hinv
          | exact LexInv_readStringTok (by assumption) hinv
          | exact LexInv_readOperator (by assumption) hinv)

lemma tokenizeStep_done {st st'' : LexState}
    (h : tokenizeStep st = .done st'') : st'' = st := by
  unfold tokenizeStep at h
  split at h
  · injection h with h; exact h.symm
  · split_ifs at h
    all_goals (try split at h)
    all_goals exact LexStep.noConfusion h

/-- A successful run of the scanning loop preserves the lexer invariant. -/
lemma LexInv_loop :
    ∀ (fuel : Nat) (st st' : LexState),
      tokenizeLoop fuel st = .ok st' → LexInv st → LexInv st' := by
  intro fuel
  induction fuel with
  | zero => intro st st' h; exact absurd h (by simp [tokenizeLoop])
  | succ n ih =>
    intro st st' h hinv
    unfold tokenizeLoop at h
    split at h
    · rename_i st2 heq
      injection h with h
      rw [← h, tokenizeStep_done heq]
      exact hinv
    · exact Except.noConfusion h
    · rename_i st2 heq
      exact ih st2 st' h (LexInv_step heq hinv)

lemma LexInv_init (chars : List Char) : LexInv (initLexState chars) := by
  refine ⟨by simp [countTok, initLexState], by simp [initLexState], ?_⟩
  simp [initLexState]

/-- Claim C6: every successful tokenization balances `Indent` against
`Dedent` and carries exactly one `EndFile` token, which is the last
token of the stream. -/
theorem C6_indent_dedent_balance :
    ∀ (chars : List Char) (ts : List Token), tokenize chars = .ok ts →
      countTok .Indent ts = countTok .Dedent ts ∧
      countTok .EndFile ts = 1 ∧
      ∃ t, ts.getLast? = some t ∧ t.tokenType = .EndFile := by
  intro chars ts h
  unfold tokenize at h
  cases hl : tokenizeLoop (lexFuel chars) (initLexState chars) with
  | error e => rw [hl] at h; exact Except.noConfusion h
  | ok st =>
    simp only [hl] at h
    obtain ⟨hc, hlast, hm⟩ := LexInv_loop _ _ _ hl (LexInv_init chars)
    cases hp : st.parenStack.getLast? with
    | some p => simp only [hp] at h; exact Except.noConfusion h
    | none =>
      simp only [hp] at h
      injection h with h
      have hL : 1 ≤ st.indentStack.length := by
        have hne : st.indentStack ≠ [] := by
          intro hh; rw [hh] at hlast; simp at hlast
        exact List.length_pos.mpr hne
      have e1 : countTok .Indent
          (List.replicate (st.indentStack.length - 1) ⟨.Dedent, "", st.line, 1⟩) = 0 := by
        rw [countTok_replicate]; simp
      have e2 : countTok .Dedent
          (List.replicate (st.indentStack.length - 1) ⟨.Dedent, "", st.line, 1⟩) =
          st.indentStack.length - 1 := by
        rw [countTok_replicate]; simp
      have e3 : countTok .Indent [(⟨.EndFile, "", st.line, st.column⟩ : Token)] = 0 := by
        simp [countTok]
      have e4 : countTok .Dedent [(⟨.EndFile, "", st.line, st.column⟩ : Token)] = 0 := by
        simp [countTok]
      have e5 : countTok .EndFile st.tokens = 0 := by
        rw [countTok, List.countP_eq_zero]
        intro t ht
        simpa using (hm t ht).1
      have e6 : countTok .EndFile
          (List.replicate (st.indentStack.length - 1) ⟨.Dedent, "", st.line, 1⟩) = 0 := by
        rw [countTok_replicate]; simp
      have e7 : countTok .EndFile [(⟨.EndFile, "", st.line, st.column⟩ : Token)] = 1 := by
        simp [countTok]
      refine ⟨?_, ?_, ?_⟩
      · rw [← h, countTok_append, countTok_append, countTok_append, countTok_append,
          e1, e2, e3, e4]
        omega
      · rw [← h, countTok_append, countTok_append, e5, e6, e7]
      · refine ⟨⟨.EndFile, "", st.line, st.column⟩, ?_, rfl⟩
        rw [← h]
        exact List.getLast?_concat _

/-- Witness for `C6_indent_dedent_balance` on the one-letter source
`a`. -/
theorem C6_indent_dedent_balance_witness :
    countTok .Indent [(⟨.Identifier, "a", 1, 1⟩ : Token), ⟨.EndFile, "", 1, 2⟩] =
      countTok .Dedent [(⟨.Identifier, "a", 1, 1⟩ : Token), ⟨.EndFile, "", 1, 2⟩] :=
  (C6_indent_dedent_balance "a".data
    [⟨.Identifier, "a", 1, 1⟩, ⟨.EndFile, "", 1, 2⟩] (by decide)).1

/-- Claim C2, amended: the lexer never emits a `Parameter` token on any
successful tokenization; a parenthesised group appears as an
`OpenedParenthesis` token, the tokens of its inner text, and a
`ClosedParenthesis` token. -/
theorem C2_no_parameter_token :
    ∀ (chars : List Char) (ts : List Token), tokenize chars = .ok ts →
      ∀ t ∈ ts, t.tokenType ≠ .Parameter := by
  intro chars ts h t ht
  unfold tokenize at h
  cases hl : tokenizeLoop (lexFuel chars) (initLexState chars) with
  | error e => rw [hl] at h; exact Except.noConfusion h
  | ok st =>
    simp only [hl] at h
    obtain ⟨hc, hlast, hm⟩ := LexInv_loop _ _ _ hl (LexInv_init chars)
    cases hp : st.parenStack.getLast? with
    | some p => simp only [hp] at h; exact Except.noConfusion h
    | none =>
      simp only [hp] at h
      injection h with h
      rw [← h] at ht
      rcases List.mem_append.mp ht with hx | hx
      · rcases List.mem_append.mp hx with hy | hy
        · exact (hm t hy).2
        · rw [List.eq_of_mem_replicate hy]; simp
      · rw [List.mem_singleton.mp hx]; simp

/-- Witness for `C2_no_parameter_token` on the source `(x)`. -/
theorem C2_no_parameter_token_witness :
    (⟨.OpenedParenthesis, "(", 1, 1⟩ : Token).tokenType ≠ .Parameter :=
  C2_no_parameter_token "(x)".data
    [⟨.OpenedParenthesis, "(", 1, 1⟩, ⟨.Identifier, "x", 1, 2⟩,
     ⟨.ClosedParenthesis, ")", 1, 3⟩, ⟨.EndFile, "", 1, 4⟩]
    (by decide) ⟨.OpenedParenthesis, "(", 1, 1⟩ (by simp)

lemma popDedents_mem (n : Nat) :
    ∀ (stack : List Nat), List.Pairwise (· > ·) stack → n ∈ stack →
      popDedents n stack =
        .ok (stack.countP (fun s => decide (n < s)),
             stack.dropWhile (fun s => decide (n < s))) := by
  intro stack
  induction stack with
  | nil => intro _ hm; cases hm
  | cons s rest ih =>
    intro hp hm
    obtain ⟨hall, hrest⟩ := List.pairwise_cons.mp hp
    rcases List.mem_cons.mp hm with rfl | hmem
    · have hzero : rest.countP (fun s => decide (n < s)) = 0 := by
        rw [List.countP_eq_zero]
        intro x hx
        simpa using Nat.not_lt.mpr (Nat.le_of_lt (hall x hx))
      rw [popDedents]
      rw [if_pos (Nat.le_refl n), if_neg (Nat.lt_irrefl n)]
      rw [List.countP_cons, List.dropWhile_cons]
      simp [hzero]
    · have hs : n < s := hall n hmem
      rw [popDedents, if_neg (Nat.not_le.mpr hs), ih hrest hmem]
      rw [List.countP_cons, List.dropWhile_cons]
      simp [hs, Nat.add_comm]

lemma popDedents_not_mem (n : Nat) :
    ∀ (stack : List Nat), stack.getLast? = some 0 → n ∉ stack →
      popDedents n stack = .error () := by
  intro stack
  induction stack with
  | nil => intro hlast; simp at hlast
  | cons s rest ih =>
    intro hlast hmem
    have hne : n ≠ s := fun hh => hmem (hh ▸ List.mem_cons_self s rest)
    have hnr : n ∉ rest := fun hh => hmem (List.mem_cons_of_mem s hh)
    by_cases hle : s ≤ n
    · have hlt : s < n := Nat.lt_of_le_of_ne hle (fun hh => hne hh.symm)
      rw [popDedents, if_pos hle, if_pos hlt]
    · by_cases hre : rest = []
      · subst hre
        have hs0 : s = 0 := by simpa using hlast
        exact absurd (hs0 ▸ Nat.zero_le n) hle
      · have hlr : rest.getLast? = some 0 := by
          rwa [getLast?_cons_ne _ _ hre] at hlast
        rw [popDedents, if_neg hle, ih hlr hnr]

/-- Claim C4, amended: `handle_indentation` (which the scanner invokes
only on lines that begin with at least one space or tab) emits, on a line
whose remainder is non-empty and whose indentation level `n` is below the
top of the indent stack, exactly one `Dedent` per stack entry greater
than `n` and pops those entries, and instead reports the error
`Indentación inconsistente` exactly when no remaining stack entry equals
`n`.  Lines with no leading whitespace never reach this function (see the
counterexample), so their pending dedents are deferred to the end of
input.  The hypotheses `headD = currentIndent`, strict descent, and the
`0` sentinel are invariants of every reachable scanner state. -/
theorem C4_dedent_emission :
    ∀ (st : LexState) (n k : Nat) (c : Char),
      countIndentAux (st.chars.drop st.position) = (n, k) →
      st.indentStack.headD 0 = st.currentIndent →
      List.Pairwise (· > ·) st.indentStack →
      st.indentStack.getLast? = some 0 →
      st.chars.get? (st.position + k) = some c →
      c ≠ '\n' →
      n < st.indentStack.headD 0 →
      ((n ∈ st.indentStack →
          handleIndentation st = .ok { st with
            tokens := st.tokens ++
              List.replicate (st.indentStack.countP (fun s => decide (n < s)))
                ⟨.Dedent, "", st.line, 1⟩,
            indentStack := st.indentStack.dropWhile (fun s => decide (n < s)),
            position := st.position + k, column := st.column + k,
            atLineStart := false, currentIndent := n }) ∧
       (n ∉ st.indentStack →
          handleIndentation st = .error ⟨"Indentación inconsistente", st.line, 1⟩)) := by
  intro st n k c hcount hhead hsort hlast hget hnl hless
  have hne : n ≠ st.currentIndent := by
    rw [← hhead]; exact Nat.ne_of_lt hless
  have hngt : ¬ (n > st.indentStack.headD 0) := Nat.not_lt.mpr (Nat.le_of_lt hless)
  constructor
  · intro hmem
    simp only [handleIndentation, hcount, hget]
    rw [if_neg hnl, if_pos hne, if_neg hngt, if_pos hless,
      popDedents_mem n st.indentStack hsort hmem]
  · intro hmem
    simp only [handleIndentation, hcount, hget]
    rw [if_neg hnl, if_pos hne, if_neg hngt, if_pos hless,
      popDedents_not_mem n st.indentStack hlast hmem]

/-- Witness for `C4_dedent_emission`: dedenting from level 8 to the
recorded level 4 on the line `\tx` emits one `Dedent` and pops one
entry. -/
theorem C4_dedent_emission_witness :
    handleIndentation
      ⟨['\t', 'x'], 0, 3, 1, [], [8, 4, 0], true, 8, []⟩ =
      .ok ⟨['\t', 'x'], 1, 3, 2, [⟨.Dedent, "", 3, 1⟩], [4, 0], false, 4, []⟩ := by
  have h := (C4_dedent_emission ⟨['\t', 'x'], 0, 3, 1, [], [8, 4, 0], true, 8, []⟩
    4 1 'x' (by decide) (by decide) (by decide) (by decide) (by decide)
    (by decide) (by decide)).1 (by decide)
  simpa using h

lemma esOp_not_fin (t : Token) (h : esOperadorBinario t = true) :
    isFinDeInstruccion t = false := by
  cases htt : t.tokenType <;>
    first
      | (simp [isFinDeInstruccion, htt]; done)
      | exact absurd h (by simp [esOperadorBinario, htt])

lemma esOp_opStr (t : Token) (h : esOperadorBinario t = true) :
    ∃ s, opStrOpt t.tokenType = some s := by
  cases htt : t.tokenType <;>
    first
      | exact ⟨_, rfl⟩
      | exact absurd h (by simp [esOperadorBinario, htt])

lemma unoMasDosPorTres_eval :
    (parseExpresionLineaCompleta 20 (newParser
      [⟨.Num, "1", 1, 1⟩, ⟨.Plus, "+", 1, 3⟩, ⟨.Num, "2", 1, 5⟩,
       ⟨.Multiply, "*", 1, 7⟩, ⟨.Num, "3", 1, 9⟩, ⟨.EndFile, "", 1, 10⟩]) 1).2
      = .ok (.Binaria (.Binaria (.Numero 1) "+" (.Numero 2)) "*" (.Numero 3)) := by
  rfl

lemma unoMasDosPorTres_ne :
    Expresion.Binaria (.Binaria (.Numero 1) "+" (.Numero 2)) "*" (.Numero 3) ≠
      Expresion.Binaria (.Numero 1) "+" (.Binaria (.Numero 2) "*" (.Numero 3)) := by
  decide

theorem C1_precedence_counterexample :
    (parseExpresionLineaCompleta 20 (newParser
      [⟨.Num, "1", 1, 1⟩, ⟨.Plus, "+", 1, 3⟩, ⟨.Num, "2", 1, 5⟩,
       ⟨.Multiply, "*", 1, 7⟩, ⟨.Num, "3", 1, 9⟩, ⟨.EndFile, "", 1, 10⟩]) 1).2
      = .ok (.Binaria (.Binaria (.Numero 1) "+" (.Numero 2)) "*" (.Numero 3)) ∧
    Expresion.Binaria (.Binaria (.Numero 1) "+" (.Numero 2)) "*" (.Numero 3) ≠
      Expresion.Binaria (.Numero 1) "+" (.Binaria (.Numero 2) "*" (.Numero 3)) :=
  ⟨unoMasDosPorTres_eval, unoMasDosPorTres_ne⟩

/-- Claim C1, amended: the parser builds every binary-operator chain at a
single precedence level, folding strictly to the left regardless of which
operators appear: `v1 op1 v2 op2 v3` always parses as
`(v1 op1 v2) op2 v3`. -/
lemma parseExpresionSimple_num (fuel : Nat) (st : ParserSt) (tok : Token)
    (hcur : st.current = some tok) (htype : tok.tokenType = .Num) :
    parseExpresionSimple (fuel + 1) st =
      (avanzar st, .ok (.Numero (i32OrZero tok.value))) := by
  simp [parseExpresionSimple, hcur, htype]

lemma parseELCLoop_none (fuel : Nat) (st : ParserSt) (l : Nat) (e : Expresion)
    (hcur : st.current = none) :
    parseELCLoop (fuel + 1) st l e = (st, .ok e) := by
  simp [parseELCLoop, hcur]

lemma parseELCLoop_step (fuel : Nat) (st st' : ParserSt) (l : Nat) (op : Token)
    (e der : Expresion)
    (hcur : st.current = some op) (hline : op.line = l)
    (hes : esOperadorBinario op = true)
    (hsimple : parseExpresionSimple fuel (avanzar st) = (st', .ok der)) :
    parseELCLoop (fuel + 1) st l e =
      parseELCLoop fuel st' l (.Binaria e ((opStrOpt op.tokenType).getD "") der) := by
  have hf := esOp_not_fin op hes
  obtain ⟨s, hs⟩ := esOp_opStr op hes
  simp [parseELCLoop, parseOperadorBinario, hcur, hline, hf, hes, hs, hsimple]

theorem C1_single_level_left_assoc :
    ∀ (fuel : Nat) (v1 v2 v3 : String) (op1 op2 : Token) (l c1 c2 c3 : Nat),
      esOperadorBinario op1 = true → esOperadorBinario op2 = true →
      op1.line = l → op2.line = l →
      parseExpresionLineaCompleta (fuel + 8)
        (newParser [⟨.Num, v1, l, c1⟩, op1, ⟨.Num, v2, l, c2⟩, op2, ⟨.Num, v3, l, c3⟩]) l
        = (⟨[⟨.Num, v1, l, c1⟩, op1, ⟨.Num, v2, l, c2⟩, op2, ⟨.Num, v3, l, c3⟩], 5, none⟩,
           .ok (.Binaria
                  (.Binaria (.Numero (i32OrZero v1)) ((opStrOpt op1.tokenType).getD "")
                    (.Numero (i32OrZero v2)))
                  ((opStrOpt op2.tokenType).getD "")
                  (.Numero (i32OrZero v3)))) := by
  intro fuel v1 v2 v3 op1 op2 l c1 c2 c3 h1 h2 hl1 hl2
  have hA : parseExpresionSimple (fuel + 7)
      (⟨[⟨.Num, v1, l, c1⟩, op1, ⟨.Num, v2, l, c2⟩, op2, ⟨.Num, v3, l, c3⟩], 1,
        some ⟨.Num, v1, l, c1⟩⟩ : ParserSt)
      = (⟨[⟨.Num, v1, l, c1⟩, op1, ⟨.Num, v2, l, c2⟩, op2, ⟨.Num, v3, l, c3⟩], 2,
          some op1⟩, .ok (.Numero (i32OrZero v1))) :=
    parseExpresionSimple_num (fuel + 6) _ ⟨.Num, v1, l, c1⟩ rfl rfl
  have hB : parseExpresionSimple (fuel + 6)
      (⟨[⟨.Num, v1, l, c1⟩, op1, ⟨.Num, v2, l, c2⟩, op2, ⟨.Num, v3, l, c3⟩], 3,
        some ⟨.Num, v2, l, c2⟩⟩ : ParserSt)
      = (⟨[⟨.Num, v1, l, c1⟩, op1, ⟨.Num, v2, l, c2⟩, op2, ⟨.Num, v3, l, c3⟩], 4,
          some op2⟩, .ok (.Numero (i32OrZero v2))) :=
    parseExpresionSimple_num (fuel + 5) _ ⟨.Num, v2, l, c2⟩ rfl rfl
  have hC : parseExpresionSimple (fuel + 5)
      (⟨[⟨.Num, v1, l, c1⟩, op1, ⟨.Num, v2, l, c2⟩, op2, ⟨.Num, v3, l, c3⟩], 5,
        some ⟨.Num, v3, l, c3⟩⟩ : ParserSt)
      = (⟨[⟨.Num, v1, l, c1⟩, op1, ⟨.Num, v2, l, c2⟩, op2, ⟨.Num, v3, l, c3⟩], 5,
          none⟩, .ok (.Numero (i32OrZero v3))) :=
    parseExpresionSimple_num (fuel + 4) _ ⟨.Num, v3, l, c3⟩ rfl rfl
  calc parseExpresionLineaCompleta (fuel + 8)
        (newParser [⟨.Num, v1, l, c1⟩, op1, ⟨.Num, v2, l, c2⟩, op2, ⟨.Num, v3, l, c3⟩]) l
      = parseELCLoop (fuel + 7)
          ⟨[⟨.Num, v1, l, c1⟩, op1, ⟨.Num, v2, l, c2⟩, op2, ⟨.Num, v3, l, c3⟩], 2,
            some op1⟩ l (.Numero (i32OrZero v1)) := by
        simp only [parseExpresionLineaCompleta]
        rw [show newParser [⟨.Num, v1, l, c1⟩, op1, ⟨.Num, v2, l, c2⟩, op2,
              ⟨.Num, v3, l, c3⟩]
            = (⟨[⟨.Num, v1, l, c1⟩, op1, ⟨.Num, v2, l, c2⟩, op2, ⟨.Num, v3, l, c3⟩],
                1, some ⟨.Num, v1, l, c1⟩⟩ : ParserSt) from rfl, hA]
    _ = parseELCLoop (fuel + 6)
          ⟨[⟨.Num, v1, l, c1⟩, op1, ⟨.Num, v2, l, c2⟩, op2, ⟨.Num, v3, l, c3⟩], 4,
            some op2⟩ l
          (.Binaria (.Numero (i32OrZero v1)) ((opStrOpt op1.tokenType).getD "")
            (.Numero (i32OrZero v2))) :=
        parseELCLoop_step (fuel + 6) _ _ l op1 _ _ rfl hl1 h1 hB
    _ = parseELCLoop (fuel + 5)
          ⟨[⟨.Num, v1, l, c1⟩, op1, ⟨.Num, v2, l, c2⟩, op2, ⟨.Num, v3, l, c3⟩], 5,
            none⟩ l
          (.Binaria
            (.Binaria (.Numero (i32OrZero v1)) ((opStrOpt op1.tokenType).getD "")
              (.Numero (i32OrZero v2)))
            ((opStrOpt op2.tokenType).getD "") (.Numero (i32OrZero v3))) :=
        parseELCLoop_step (fuel + 5) _ _ l op2 _ _ rfl hl2 h2 hC
    _ = (⟨[⟨.Num, v1, l, c1⟩, op1, ⟨.Num, v2, l, c2⟩, op2, ⟨.Num, v3, l, c3⟩], 5, none⟩,
         .ok (.Binaria
                (.Binaria (.Numero (i32OrZero v1)) ((opStrOpt op1.tokenType).getD "")
                  (.Numero (i32OrZero v2)))
                ((opStrOpt op2.tokenType).getD "")
                (.Numero (i32OrZero v3)))) :=
        parseELCLoop_none (fuel + 4) _ l _ rfl

/-- Witness for `C1_single_level_left_assoc` on `1 + 2 * 3`. -/
theorem C1_single_level_left_assoc_witness :
    parseExpresionLineaCompleta 8
      (newParser [⟨.Num, "1", 1, 1⟩, ⟨.Plus, "+", 1, 3⟩, ⟨.Num, "2", 1, 5⟩,
        ⟨.Multiply, "*", 1, 7⟩, ⟨.Num, "3", 1, 9⟩]) 1
      = (⟨[⟨.Num, "1", 1, 1⟩, ⟨.Plus, "+", 1, 3⟩, ⟨.Num, "2", 1, 5⟩,
          ⟨.Multiply, "*", 1, 7⟩, ⟨.Num, "3", 1, 9⟩], 5, none⟩,
         .ok (.Binaria
                (.Binaria (.Numero (i32OrZero "1"))
                  ((opStrOpt TokenType.Plus).getD "") (.Numero (i32OrZero "2")))
                ((opStrOpt TokenType.Multiply).getD "")
                (.Numero (i32OrZero "3")))) :=
  C1_single_level_left_assoc 0 "1" "2" "3" ⟨.Plus, "+", 1, 3⟩ ⟨.Multiply, "*", 1, 7⟩
    1 1 5 9 (by decide) (by decide) rfl rfl

/-- Claim C3, as stated, is false: on a main block whose first statement
is unparseable (a stray `+`), the parser skips the offending token,
continues, and returns a `Program` whose main body contains the `mover`
call that follows the failed statement. -/
theorem C3_recovery_counterexample :
    parseTokens
      [⟨.Keyword, "programa", 1, 1⟩, ⟨.Identifier, "P", 1, 10⟩,
       ⟨.Keyword, "comenzar", 2, 1⟩, ⟨.Plus, "+", 3, 1⟩,
       ⟨.ElementalInstruction, "mover", 3, 3⟩, ⟨.Keyword, "fin", 4, 1⟩,
       ⟨.EndFile, "", 4, 4⟩]
      = .ok ⟨"P", [], [], [], [⟨"main", [], [.LlamadaFuncion "mover" []]⟩],
             [], [], []⟩ := by
  rfl

/-- Claim C3, amended: when `parse_instruccion` fails inside a
`comenzar … fin` block, the statement loops of `parse_programa` (main
block) and of `parse_proceso`/`parse_robots` do not abort: they skip one
token past the failure state and continue, so the returned `Program` can
contain statements that follow an unparseable one.  (Errors of the
section-level productions — `procesos`, `areas`, `robots`, `variables`
declarations — do propagate and abort the parse.) -/
theorem C3_statement_skip_on_error :
    ∀ (fuel : Nat) (st st1 : ParserSt) (e : CompilerError) (acc : MainAcc)
      (acc2 : List Instruccion) (token : Token),
      st.current = some token →
      (token.tokenType == .Keyword && token.value == "fin") = false →
      (token.tokenType == .Indent || token.tokenType == .Dedent) = false →
      parseInstruccion fuel st = (st1, .error e) →
      parseMainLoop (fuel + 1) st acc = parseMainLoop fuel (avanzar st1) acc ∧
      parseInstrLoop (fuel + 1) st acc2 = parseInstrLoop fuel (avanzar st1) acc2 := by
  intro fuel st st1 e acc acc2 token hcur hfin hind hparse
  constructor
  · simp [parseMainLoop, hcur, hfin, hind, hparse]
  · simp [parseInstrLoop, hcur, hfin, hind, hparse]

/-- Witness for `C3_statement_skip_on_error` at a stray `+` token. -/
theorem C3_statement_skip_on_error_witness :
    parseMainLoop 3 (newParser [⟨.Plus, "+", 3, 1⟩, ⟨.Keyword, "fin", 4, 1⟩]) ⟨[], [], []⟩
      = parseMainLoop 2
          (avanzar (newParser [⟨.Plus, "+", 3, 1⟩, ⟨.Keyword, "fin", 4, 1⟩]))
          ⟨[], [], []⟩ :=
  (C3_statement_skip_on_error 2 (newParser [⟨.Plus, "+", 3, 1⟩, ⟨.Keyword, "fin", 4, 1⟩])
    (newParser [⟨.Plus, "+", 3, 1⟩, ⟨.Keyword, "fin", 4, 1⟩])
    ⟨"Instrucción no reconocida: Plus", 3, 1⟩ ⟨[], [], []⟩ [] ⟨.Plus, "+", 3, 1⟩
    rfl rfl rfl rfl).1

lemma rustParseI32L_digits (l : List Char) (hne : l ≠ [])
    (hd : l.all Char.isDigit = true) :
    rustParseI32L l =
      if l.foldl (fun a c => a * 10 + (c.toNat - 48)) 0 ≤ 2147483647 then
        some ((l.foldl (fun a c => a * 10 + (c.toNat - 48)) 0 : Nat) : Int)
      else none := by
  cases l with
  | nil => exact absurd rfl hne
  | cons c rest =>
    have hc : c.isDigit = true := by
      have := List.all_eq_true.mp hd c (List.mem_cons_self c rest)
      simpa using this
    have hplus : c ≠ '+' := by
      intro hh; rw [hh] at hc; exact absurd hc (by decide)
    have hminus : c ≠ '-' := by
      intro hh; rw [hh] at hc; exact absurd hc (by decide)
    unfold rustParseI32L
    split
    · rename_i rest' heq
      exact absurd (List.head_eq_of_cons_eq heq) hplus
    · rename_i rest' heq
      exact absurd (List.head_eq_of_cons_eq heq) hminus
    · simp [parseDigitsNat, hd]

/-- Claim C9: a `Number` token is converted with
`parse::<i32>().unwrap_or(0)`, both in `parse_expresion_simple` and in
the `parse_areas` coordinate reader: a digit string that exceeds
`i32::MAX` silently becomes the value 0 (no error is reported), and one
that fits becomes its exact value. -/
theorem C9_number_overflow_to_zero :
    (∀ (fuel : Nat) (st : ParserSt) (tok : Token),
        st.current = some tok → tok.tokenType = .Num →
        parseExpresionSimple (fuel + 1) st =
          (avanzar st, .ok (.Numero (i32OrZero tok.value)))) ∧
    (∀ s : String, s.data ≠ [] → s.data.all Char.isDigit = true →
        i32OrZero s =
          if digitsNatVal s ≤ 2147483647 then (digitsNatVal s : Int) else 0) ∧
    (parseAreas 10 (newParser
      [⟨.Identifier, "a", 1, 1⟩, ⟨.Declaration, ":", 1, 2⟩,
       ⟨.ElementalInstruction, "AreaC", 1, 4⟩, ⟨.OpenedParenthesis, "(", 1, 9⟩,
       ⟨.Num, "2147483648", 1, 10⟩, ⟨.Comma, ",", 1, 20⟩, ⟨.Num, "1", 1, 21⟩,
       ⟨.Comma, ",", 1, 22⟩, ⟨.Num, "2", 1, 23⟩, ⟨.Comma, ",", 1, 24⟩,
       ⟨.Num, "3", 1, 25⟩, ⟨.ClosedParenthesis, ")", 1, 26⟩,
       ⟨.EndFile, "", 1, 27⟩]) []).2
      = .ok [⟨"a", "AreaC", (0, 1, 2, 3)⟩] := by
  refine ⟨?_, ?_, by rfl⟩
  · intro fuel st tok hcur htype
    simp [parseExpresionSimple, hcur, htype]
  · intro s hne hd
    unfold i32OrZero rustParseI32 digitsNatVal
    rw [rustParseI32L_digits s.data hne hd]
    split <;> simp

/-- Witness for `C9_number_overflow_to_zero`: the literal `2147483648`
(one past `i32::MAX`) becomes the expression `Numero 0`, and the fitting
literal `7` its exact value. -/
theorem C9_number_overflow_to_zero_witness :
    parseExpresionSimple 1 (newParser [⟨.Num, "2147483648", 1, 1⟩]) =
      (avanzar (newParser [⟨.Num, "2147483648", 1, 1⟩]),
       .ok (.Numero (i32OrZero "2147483648"))) ∧
    i32OrZero "2147483648" =
      (if digitsNatVal "2147483648" ≤ 2147483647
       then (digitsNatVal "2147483648" : Int) else 0) ∧
    i32OrZero "7" =
      (if digitsNatVal "7" ≤ 2147483647 then (digitsNatVal "7" : Int) else 0) :=
  ⟨C9_number_overflow_to_zero.1 0 (newParser [⟨.Num, "2147483648", 1, 1⟩])
      ⟨.Num, "2147483648", 1, 1⟩ rfl rfl,
   C9_number_overflow_to_zero.2.1 "2147483648" (by decide) (by decide),
   C9_number_overflow_to_zero.2.1 "7" (by decide) (by decide)⟩

/- ### Lemmas and claims about the semantic analyzer. -/

lemma asString_data (s : String) : s.data.asString = s := by
  cases s
  rfl

lemma strData_append (s t : String) : (s ++ t).data = s.data ++ t.data := rfl

lemma lookup_append_none {β : Type} (k : String) (l1 l2 : List (String × β))
    (h : List.lookup k l1 = none) :
    List.lookup k (l1 ++ l2) = List.lookup k l2 := by
  induction l1 with
  | nil => simp
  | cons a t ih =>
    obtain ⟨a1, b1⟩ := a
    simp only [List.cons_append, List.lookup] at h ⊢
    cases hb : (k == a1) with
    | true => rw [hb] at h; exact Option.noConfusion h
    | false => rw [hb] at h; exact ih h

lemma bumpCount_lookup (m : List (String × Nat)) (k : String) :
    List.lookup k (bumpCount m k) = some ((List.lookup k m).getD 0 + 1) := by
  induction m with
  | nil => simp [bumpCount, List.lookup]
  | cons a t ih =>
    obtain ⟨a1, n1⟩ := a
    by_cases hb : a1 = k
    · subst hb
      simp [bumpCount, List.lookup]
    · have hab : (a1 == k) = false := beq_eq_false_iff_ne.mpr hb
      have hba : (k == a1) = false := beq_eq_false_iff_ne.mpr (Ne.symm hb)
      simp [bumpCount, List.lookup, hab, hba, ih]

lemma mem_insertSet (s : List String) (a : String) : a ∈ insertSet s a := by
  unfold insertSet
  split
  · next h => exact List.mem_of_elem_eq_true h
  · simp

lemma checkParams_comm : ∀ (ps : List String) (st : AnalyzerSt),
    (checkInstructionParams st ps).messageCommunications
      = st.messageCommunications := by
  intro ps
  induction ps with
  | nil => intro st; rfl
  | cons p rest ih =>
    intro st
    simp only [checkInstructionParams]
    rw [ih]
    split
    · split
      · split
        · simp [pushErr]
        · rfl
      · simp [pushErr]
    · rfl

lemma splitArrowAux_noArrow : ∀ (l acc : List Char), arrowIn l = false →
    splitArrowAux acc l = [acc.reverse ++ l] := by
  intro l
  induction l with
  | nil => intro acc _; simp [splitArrowAux]
  | cons c l2 ih =>
    intro acc h
    cases l2 with
    | nil => simp [splitArrowAux]
    | cons d l3 =>
      have h2 : (c == '-' && d == '>') = false ∧ arrowIn (d :: l3) = false := by
        simpa [arrowIn, Bool.or_eq_false_iff] using h
      have hstep : splitArrowAux acc (c :: d :: l3) = splitArrowAux (c :: acc) (d :: l3) := by
        simp [splitArrowAux, h2.1]
      rw [hstep, ih (c :: acc) h2.2]
      simp

lemma splitArrowAux_append (b : List Char) :
    ∀ (a acc : List Char), arrowIn a = false →
      splitArrowAux acc (a ++ '-' :: '>' :: b)
        = (acc.reverse ++ a) :: splitArrowAux [] b := by
  intro a
  induction a with
  | nil =>
    intro acc _
    have ht : ('-' == '-' && '>' == '>') = true := by decide
    simp [splitArrowAux, ht]
  | cons c a2 ih =>
    intro acc h
    cases a2 with
    | nil =>
      have hf : ('-' == '>') = false := by decide
      have ht : ('-' == '-' && '>' == '>') = true := by decide
      simp [splitArrowAux, hf, ht]
    | cons d a3 =>
      have h2 : (c == '-' && d == '>') = false ∧ arrowIn (d :: a3) = false := by
        simpa [arrowIn, Bool.or_eq_false_iff] using h
      have hstep : splitArrowAux acc ((c :: d :: a3) ++ '-' :: '>' :: b)
          = splitArrowAux (c :: acc) ((d :: a3) ++ '-' :: '>' :: b) := by
        simp [splitArrowAux, h2.1]
      rw [hstep, ih (c :: acc) h2.2]
      simp

lemma splitArrow_concat (a b : String) (ha : arrowIn a.data = false)
    (hb : arrowIn b.data = false) :
    splitArrow (a ++ "->" ++ b) = [a, b] := by
  unfold splitArrow
  have harrow : ("->" : String).data = ['-', '>'] := rfl
  have hd : (a ++ "->" ++ b).data = a.data ++ '-' :: '>' :: b.data := by
    simp [strData_append, harrow]
  rw [hd, splitArrowAux_append b.data a.data [] ha, splitArrowAux_noArrow b.data [] hb]
  simp [asString_data]

/-- **C7.** `EnviarMensaje` with first argument `t`, analyzed in the
current entity scope `S = getCurrentEntityName st`, increments `sends[S]`
by one and records the connection `S -> t`; `RecibirMensaje` with first
argument `s` increments `receives[R]` by one for the current entity `R`
and records `s -> R`; a recorded connection `a -> b` (for arrow-free
names) is counted as effective exactly when `receives[b] > 0`; and on the
two-robot scenario `astC7` (robot `A` sends to `B`, robot `B` receives
from `A`) the analyzer computes connections `["A->B"]`, one effective
connection, one send for `A` and one receive for `B`. -/
theorem C7_message_communication :
    (∀ (st : AnalyzerSt) (t : String) (ps : List String),
      sendsCount (visitElementalInstruction st "EnviarMensaje" (t :: ps))
          (getCurrentEntityName st)
        = sendsCount st (getCurrentEntityName st) + 1 ∧
      (getCurrentEntityName st ++ "->" ++ t) ∈
        (visitElementalInstruction st "EnviarMensaje"
          (t :: ps)).messageCommunications.connections) ∧
    (∀ (st : AnalyzerSt) (s : String) (ps : List String),
      receivesCount (visitElementalInstruction st "RecibirMensaje" (s :: ps))
          (getCurrentEntityName st)
        = receivesCount st (getCurrentEntityName st) + 1 ∧
      (s ++ "->" ++ getCurrentEntityName st) ∈
        (visitElementalInstruction st "RecibirMensaje"
          (s :: ps)).messageCommunications.connections) ∧
    (∀ (st : AnalyzerSt) (a b : String),
      arrowIn a.data = false → arrowIn b.data = false →
      connectionIsEffective st (a ++ "->" ++ b)
        = decide (0 < receivesCount st b)) ∧
    ((visitProgram (analyzerFuel astC7) newAnalyzer
        astC7).messageCommunications.connections = ["A->B"] ∧
      (analyze astC7).communicationStats.effectiveConnections = 1 ∧
      (analyze astC7).communicationStats.totalSends = 1 ∧
      (analyze astC7).communicationStats.totalReceives = 1 ∧
      (analyze astC7).communicationStats.byRobot
        = [⟨"A", 1, 0, 1, true⟩, ⟨"B", 0, 1, 1, true⟩]) := by
  refine ⟨?_, ?_, ?_, ?_⟩
  · intro st t ps
    have hred : visitElementalInstruction st "EnviarMensaje" (t :: ps)
        = checkInstructionParams (registerMessageSend st (some t)) (t :: ps) := rfl
    constructor
    · rw [hred]
      unfold sendsCount
      rw [checkParams_comm]
      have hs : (registerMessageSend st (some t)).messageCommunications.sends
          = bumpCount st.messageCommunications.sends (getCurrentEntityName st) := rfl
      rw [hs, bumpCount_lookup]
      rfl
    · rw [hred]
      rw [checkParams_comm (t :: ps) (registerMessageSend st (some t))]
      have hc : (registerMessageSend st (some t)).messageCommunications.connections
          = insertSet st.messageCommunications.connections
              (getCurrentEntityName st ++ "->" ++ t) := rfl
      rw [hc]
      exact mem_insertSet _ _
  · intro st s ps
    have hred : visitElementalInstruction st "RecibirMensaje" (s :: ps)
        = checkInstructionParams (registerMessageReceive st (some s)) (s :: ps) := rfl
    constructor
    · rw [hred]
      unfold receivesCount
      rw [checkParams_comm]
      have hs : (registerMessageReceive st (some s)).messageCommunications.receives
          = bumpCount st.messageCommunications.receives (getCurrentEntityName st) := rfl
      rw [hs, bumpCount_lookup]
      rfl
    · rw [hred]
      rw [checkParams_comm (s :: ps) (registerMessageReceive st (some s))]
      have hc : (registerMessageReceive st (some s)).messageCommunications.connections
          = insertSet st.messageCommunications.connections
              (s ++ "->" ++ getCurrentEntityName st) := rfl
      rw [hc]
      exact mem_insertSet _ _
  · intro st a b ha hb
    unfold connectionIsEffective
    rw [splitArrow_concat a b ha hb]
  · exact ⟨rfl, rfl, rfl, rfl, rfl⟩

/-- Witness for C7: the effective-connection rule applied at the concrete
arrow-free names `A`, `B` over the fresh analyzer state. -/
theorem C7_message_communication_witness :
    arrowIn "A".data = false ∧ arrowIn "B".data = false ∧
    connectionIsEffective newAnalyzer ("A" ++ "->" ++ "B")
      = decide (0 < receivesCount newAnalyzer "B") :=
  ⟨by decide, by decide,
   C7_message_communication.2.2.1 newAnalyzer "A" "B" (by decide) (by decide)⟩

/-- **C8.** For every AST, `analyze` returns `success = true` exactly when
the accumulated error list is empty, and the executable IR, the symbol
table and the communication statistics of the traversal are included in
the result unconditionally — in particular also when errors were
recorded. -/
theorem C8_success_iff_errors_empty (ast : ASTNode) :
    ((analyze ast).success = true ↔ (analyze ast).errors = []) ∧
    (analyze ast).executable
      = (visitProgram (analyzerFuel ast) newAnalyzer ast).executableCode ∧
    (analyze ast).symbolTable
      = (visitProgram (analyzerFuel ast) newAnalyzer ast).symbolTable ∧
    (analyze ast).communicationStats
      = getCommunicationStats (visitProgram (analyzerFuel ast) newAnalyzer ast) := by
  refine ⟨?_, rfl, rfl, rfl⟩
  have hs : (analyze ast).success
      = (visitProgram (analyzerFuel ast) newAnalyzer ast).errors.isEmpty := rfl
  have he : (analyze ast).errors
      = (visitProgram (analyzerFuel ast) newAnalyzer ast).errors := rfl
  rw [hs, he]
  cases (visitProgram (analyzerFuel ast) newAnalyzer ast).errors with
  | nil => simp
  | cons a t => simp [List.isEmpty]

/-- **C10.** Declaring a name a second time in the same scope only records
the duplicate-declaration error: the scope stack and the flat symbol table
are unchanged, and looking the name up still resolves to the symbol of the
first declaration. -/
theorem C10_duplicate_declaration (st : AnalyzerSt) (top : Scope)
    (rest : List Scope) (n t1 s1 t2 s2 : String)
    (hstack : st.scopeStack = top :: rest)
    (hfresh : List.lookup n top = none) :
    (declareVariable (declareVariable st n t1 s1) n t2 s2).scopeStack
      = (declareVariable st n t1 s1).scopeStack ∧
    (declareVariable (declareVariable st n t1 s1) n t2 s2).symbolTable
      = (declareVariable st n t1 s1).symbolTable ∧
    (declareVariable (declareVariable st n t1 s1) n t2 s2).errors
      = (declareVariable st n t1 s1).errors
        ++ [⟨"Variable '" ++ n ++ "' ya declarada en este ámbito", 0, 0⟩] ∧
    lookupVariable (declareVariable (declareVariable st n t1 s1) n t2 s2) n
      = some ⟨n, t1, s1, t1 == "robot" || t1 == "area", false⟩ ∧
    lookupVariable (declareVariable (declareVariable st n t1 s1) n t2 s2) n
      = lookupVariable (declareVariable st n t1 s1) n := by
  have h1 : declareVariable st n t1 s1
      = { st with
            scopeStack :=
              (top ++ [(n, ⟨n, t1, s1, t1 == "robot" || t1 == "area", false⟩)]) :: rest,
            symbolTable := st.symbolTable ++
              [⟨n, t1, s1, t1 == "robot" || t1 == "area", false⟩] } := by
    unfold declareVariable
    rw [hstack]
    simp [hfresh]
  have hlook : List.lookup n
      (top ++ [(n, (⟨n, t1, s1, t1 == "robot" || t1 == "area", false⟩ : SymbolInfo))])
      = some ⟨n, t1, s1, t1 == "robot" || t1 == "area", false⟩ := by
    rw [lookup_append_none n top _ hfresh]
    simp [List.lookup]
  have h2 : declareVariable (declareVariable st n t1 s1) n t2 s2
      = pushErr (declareVariable st n t1 s1)
          ("Variable '" ++ n ++ "' ya declarada en este ámbito") := by
    conv_lhs => rw [h1]
    conv_rhs => rw [h1]
    unfold declareVariable
    simp [hlook, pushErr]
  have h3 : lookupVariable (declareVariable st n t1 s1) n
      = some ⟨n, t1, s1, t1 == "robot" || t1 == "area", false⟩ := by
    rw [h1]
    show lookupVariableIn
      ((top ++ [(n, ⟨n, t1, s1, t1 == "robot" || t1 == "area", false⟩)]) :: rest) n = _
    simp only [lookupVariableIn, hlook]
  refine ⟨?_, ?_, ?_, ?_, ?_⟩
  · rw [h2]; rfl
  · rw [h2]; rfl
  · rw [h2]; rfl
  · rw [h2]
    show lookupVariableIn (declareVariable st n t1 s1).scopeStack n = _
    exact h3
  · rw [h2]
    show lookupVariableIn (declareVariable st n t1 s1).scopeStack n = _
    exact h3.trans h3.symm

/-- Witness for C10: declaring `x` twice in the fresh analyzer's single
empty scope records exactly the duplicate error and keeps the first
(`numero`) symbol as the lookup result. -/
theorem C10_duplicate_declaration_witness :
    newAnalyzer.scopeStack = [] :: [] ∧
    List.lookup "x" ([] : Scope) = none ∧
    (declareVariable (declareVariable newAnalyzer "x" "numero" "global")
        "x" "booleano" "global").errors
      = (declareVariable newAnalyzer "x" "numero" "global").errors
        ++ [⟨"Variable '" ++ "x" ++ "' ya declarada en este ámbito", 0, 0⟩] ∧
    lookupVariable (declareVariable (declareVariable newAnalyzer "x" "numero" "global")
        "x" "booleano" "global") "x"
      = some ⟨"x", "numero", "global", "numero" == "robot" || "numero" == "area", false⟩ :=
  ⟨rfl, rfl,
   (C10_duplicate_declaration newAnalyzer [] [] "x" "numero" "global" "booleano" "global"
      rfl rfl).2.2.1,
   (C10_duplicate_declaration newAnalyzer [] [] "x" "numero" "global" "booleano" "global"
      rfl rfl).2.2.2.1⟩

end RInfo
